import Mathlib

/-!
Verification of the parking-lot vehicle state-tracking core.

This file shallowly embeds the algorithmic core of the repository —
bounding-box IoU and duplicate suppression (`smart_parking_mvp/tracker.py`),
the parked/moving hysteresis classifier (`automatic_detector.py`),
the slot occupancy debounce (`smart_parking_mvp/smart_parking_mvp.py`),
the stability filter and the tracking manager (`smart_parking_mvp/tracker.py`)
— and proves or refutes the frozen claims about them.

Conventions of the embedding:
* Python floats are modelled as exact rationals (`ℚ`); pixel coordinates as `ℤ`.
* Wall-clock reads (`time.time()`, `datetime.now()`) become an explicit
  `now : ℚ` argument threaded into each update.
* Mutating methods become state-passing functions returning the new record.
* Python truthiness on optional identifiers / timestamps (`if vehicle_id:`)
  is embedded exactly: `None` and `0`/`0.0` are falsy.
* `numpy`/`shapely`/YOLO/OpenCV are external collaborators (out of core
  scope per the specification); where the core consumes one of their values
  (a polygon-overlap ratio) the value is taken as an input.
-/

namespace Parking

/-! ## Geometry: `calculate_iou` (src/smart_parking_mvp/tracker.py, lines 12-33) -/

/-- An axis-aligned bounding box `(x1, y1, x2, y2)` in pixel coordinates. -/
abbrev Box := Int × Int × Int × Int

/-- Embedding of `calculate_iou(box1, box2)`: intersection over union of two
bounding boxes, `0` when the union is not positive. -/
def calculate_iou (box1 box2 : Box) : ℚ :=
  let x1 := max box1.1 box2.1
  let y1 := max box1.2.1 box2.2.1
  let x2 := min box1.2.2.1 box2.2.2.1
  let y2 := min box1.2.2.2 box2.2.2.2
  let intersection := max 0 (x2 - x1) * max 0 (y2 - y1)
  let area1 := (box1.2.2.1 - box1.1) * (box1.2.2.2 - box1.2.1)
  let area2 := (box2.2.2.1 - box2.1) * (box2.2.2.2 - box2.2.1)
  let union := area1 + area2 - intersection
  if 0 < union then (intersection : ℚ) / (union : ℚ) else 0

/-! ## Detections

One detection dictionary as produced per frame and consumed by
`remove_duplicate_detections`, `StabilityFilter.filter_detections` and
`TrackingManager.update_trackers`. The keys the core reads are embedded as
fields; rendering-only keys are not part of the core. -/

/-- A per-frame detection: `{track_id, bbox, confidence, class_id, class_name, center}`. -/
structure Det where
  track_id : Option Int
  bbox : Box
  confidence : ℚ
  class_id : Int
  class_name : String
  center : Int × Int
deriving DecidableEq, Repr

/-! ## Duplicate suppression (src/smart_parking_mvp/tracker.py, lines 36-72) -/

/-- Insert a detection into a list kept in descending-confidence order,
before the first strictly smaller confidence (so the fold below is the
stable descending sort `sorted(detections, key=confidence, reverse=True)`). -/
def insertByConf (d : Det) : List Det → List Det
  | [] => [d]
  | b :: t => if b.confidence ≤ d.confidence then d :: b :: t else b :: insertByConf d t

/-- `sorted(detections, key=lambda x: x['confidence'], reverse=True)`. -/
def sortByConfDesc (l : List Det) : List Det :=
  l.foldr insertByConf []

/-- One iteration of the greedy keep loop: append `det` to `keep` unless its
IoU against some already-kept detection exceeds the threshold. -/
def keepStep (iou_threshold : ℚ) (keep : List Det) (det : Det) : List Det :=
  if keep.all fun kept_det => decide (calculate_iou det.bbox kept_det.bbox ≤ iou_threshold) then
    keep ++ [det]
  else
    keep

/-- Embedding of `remove_duplicate_detections(detections, iou_threshold=0.65)`. -/
def remove_duplicate_detections (detections : List Det) (iou_threshold : ℚ := 13/20) :
    List Det :=
  if detections.length = 0 then detections
  else (sortByConfDesc detections).foldl (keepStep iou_threshold) []

/-- The descending-confidence order used by the sort. -/
def confGE (a b : Det) : Prop := b.confidence ≤ a.confidence

instance : DecidableRel confGE :=
  fun a b => inferInstanceAs (Decidable (b.confidence ≤ a.confidence))

instance : IsTotal Det confGE :=
  ⟨fun a b => le_total b.confidence a.confidence⟩

instance : IsTrans Det confGE :=
  ⟨fun _ _ _ h1 h2 => le_trans h2 h1⟩

lemma insertByConf_eq_orderedInsert (d : Det) (l : List Det) :
    insertByConf d l = List.orderedInsert confGE d l := by
  induction l with
  | nil => rfl
  | cons b t ih =>
    by_cases h : b.confidence ≤ d.confidence
    · rw [insertByConf, if_pos h, List.orderedInsert, if_pos (show confGE d b from h)]
    · rw [insertByConf, if_neg h, List.orderedInsert, if_neg (show ¬ confGE d b from h), ih]

lemma sortByConfDesc_eq_insertionSort (l : List Det) :
    sortByConfDesc l = List.insertionSort confGE l := by
  induction l with
  | nil => rfl
  | cons b t ih =>
    show insertByConf b (sortByConfDesc t) = _
    rw [insertByConf_eq_orderedInsert, ih, List.insertionSort]

lemma sortByConfDesc_perm (l : List Det) : List.Perm (sortByConfDesc l) l := by
  rw [sortByConfDesc_eq_insertionSort]; exact List.perm_insertionSort confGE l

lemma sortByConfDesc_sorted (l : List Det) : List.Pairwise confGE (sortByConfDesc l) := by
  rw [sortByConfDesc_eq_insertionSort]; exact List.sorted_insertionSort confGE l

lemma sortByConfDesc_eq_self {l : List Det} (h : List.Pairwise confGE l) :
    sortByConfDesc l = l := by
  rw [sortByConfDesc_eq_insertionSort]; exact List.Sorted.insertionSort_eq h

/-- The relation holding between an earlier-kept and a later-kept detection:
the later one's IoU against the earlier one is within the threshold. -/
def iouOK (th : ℚ) (a b : Det) : Prop := calculate_iou b.bbox a.bbox ≤ th

lemma foldl_keepStep_append (th : ℚ) :
    ∀ (l acc : List Det), ∃ s, List.Sublist s l ∧ List.foldl (keepStep th) acc l = acc ++ s
  | [], _ => ⟨[], List.Sublist.refl _, by simp⟩
  | d :: t, acc => by
    by_cases h :
        (acc.all fun k => decide (calculate_iou d.bbox k.bbox ≤ th)) = true
    · obtain ⟨s, hs, he⟩ := foldl_keepStep_append th t (acc ++ [d])
      refine ⟨d :: s, List.Sublist.cons₂ d hs, ?_⟩
      rw [List.foldl_cons, keepStep, if_pos h, he, List.append_assoc]
      rfl
    · obtain ⟨s, hs, he⟩ := foldl_keepStep_append th t acc
      refine ⟨s, List.Sublist.cons d hs, ?_⟩
      rw [List.foldl_cons, keepStep, if_neg h, he]

lemma mem_foldl_keepStep_of_mem_acc (th : ℚ) {k : Det} (l : List Det) (acc : List Det)
    (hk : k ∈ acc) : k ∈ List.foldl (keepStep th) acc l := by
  obtain ⟨s, _, he⟩ := foldl_keepStep_append th l acc
  rw [he]; exact List.mem_append_left s hk

lemma pairwise_foldl_keepStep (th : ℚ) :
    ∀ (l acc : List Det), List.Pairwise (iouOK th) acc →
      List.Pairwise (iouOK th) (List.foldl (keepStep th) acc l)
  | [], _, hacc => hacc
  | d :: t, acc, hacc => by
    rw [List.foldl_cons, keepStep]
    by_cases h :
        (acc.all fun k => decide (calculate_iou d.bbox k.bbox ≤ th)) = true
    · rw [if_pos h]
      refine pairwise_foldl_keepStep th t _ ?_
      rw [List.pairwise_append]
      refine ⟨hacc, List.pairwise_singleton _ _, ?_⟩
      intro a ha b hb
      rw [List.mem_singleton] at hb
      subst hb
      have := List.all_eq_true.mp h a ha
      show calculate_iou b.bbox a.bbox ≤ th
      exact of_decide_eq_true this
    · rw [if_neg h]
      exact pairwise_foldl_keepStep th t acc hacc

lemma foldl_keepStep_all_kept (th : ℚ) :
    ∀ (l acc : List Det), List.Pairwise (iouOK th) l →
      (∀ d ∈ l, ∀ k ∈ acc, calculate_iou d.bbox k.bbox ≤ th) →
      List.foldl (keepStep th) acc l = acc ++ l
  | [], acc, _, _ => by simp
  | d :: t, acc, hp, hok => by
    have hall : (acc.all fun k => decide (calculate_iou d.bbox k.bbox ≤ th)) = true := by
      rw [List.all_eq_true]
      intro k hk
      exact decide_eq_true (hok d (List.mem_cons_self d t) k hk)
    rw [List.foldl_cons, keepStep, if_pos hall]
    have hrec := foldl_keepStep_all_kept th t (acc ++ [d]) hp.of_cons ?_
    · rw [hrec, List.append_assoc]; rfl
    · intro d' hd' k hk
      rcases List.mem_append.mp hk with hk | hk
      · exact hok d' (List.mem_cons_of_mem d hd') k hk
      · rw [List.mem_singleton] at hk
        subst hk
        exact (List.pairwise_cons.mp hp).1 d' hd'

lemma mem_foldl_keepStep_or (th : ℚ) :
    ∀ (l acc : List Det) (d : Det), d ∈ l →
      d ∈ List.foldl (keepStep th) acc l ∨
        ∃ k ∈ List.foldl (keepStep th) acc l, th < calculate_iou d.bbox k.bbox
  | [], _, _, hd => absurd hd (List.not_mem_nil _)
  | a :: t, acc, d, hd => by
    rw [List.foldl_cons]
    rcases List.mem_cons.mp hd with rfl | hd
    · by_cases h :
          (acc.all fun k => decide (calculate_iou d.bbox k.bbox ≤ th)) = true
      · left
        rw [keepStep, if_pos h]
        exact mem_foldl_keepStep_of_mem_acc th t _ (List.mem_append_right acc (List.mem_singleton_self d))
      · right
        rw [List.all_eq_true] at h
        push_neg at h
        obtain ⟨k, hk, hkd⟩ := h
        refine ⟨k, ?_, ?_⟩
        · rw [keepStep, if_neg ?_]
          · exact mem_foldl_keepStep_of_mem_acc th t acc hk
          · rw [List.all_eq_true]; push_neg; exact ⟨k, hk, hkd⟩
        · have := of_decide_eq_false (Bool.not_eq_true _ ▸ hkd : decide (calculate_iou d.bbox k.bbox ≤ th) = false)
          exact lt_of_not_le this
    · exact mem_foldl_keepStep_or th t _ d hd

/-- The first detection of End-to-end scenario 4: box `(0,0,100,100)`, confidence `0.9`. -/
def detA : Det :=
  { track_id := none, bbox := (0, 0, 100, 100), confidence := 9/10,
    class_id := 2, class_name := "car", center := (50, 50) }

/-- The second detection of End-to-end scenario 4: box `(5,5,105,105)`, confidence `0.6`. -/
def detB : Det :=
  { track_id := none, bbox := (5, 5, 105, 105), confidence := 3/5,
    class_id := 2, class_name := "car", center := (55, 55) }

/-- C8: `calculate_iou` is symmetric for all boxes; bounded in `[0, 1]` for boxes with
`x2 ≥ x1` and `y2 ≥ y1`; equal to `1` on any box of positive width and height against
itself; and equal to `0` whenever the boxes do not overlap (the intersection interval is
empty on either axis) or either box's computed area `(x2-x1)*(y2-y1)` is non-positive. -/
theorem c8_iou_properties :
    (∀ A B : Box, calculate_iou A B = calculate_iou B A)
    ∧ (∀ A B : Box, A.1 ≤ A.2.2.1 → A.2.1 ≤ A.2.2.2 → B.1 ≤ B.2.2.1 → B.2.1 ≤ B.2.2.2 →
        0 ≤ calculate_iou A B ∧ calculate_iou A B ≤ 1)
    ∧ (∀ A : Box, A.1 < A.2.2.1 → A.2.1 < A.2.2.2 → calculate_iou A A = 1)
    ∧ (∀ A B : Box,
        (min A.2.2.1 B.2.2.1 ≤ max A.1 B.1 ∨ min A.2.2.2 B.2.2.2 ≤ max A.2.1 B.2.1
          ∨ (A.2.2.1 - A.1) * (A.2.2.2 - A.2.1) ≤ 0
          ∨ (B.2.2.1 - B.1) * (B.2.2.2 - B.2.1) ≤ 0) →
        calculate_iou A B = 0) := by
  refine ⟨?_, ?_, ?_, ?_⟩
  · intro A B
    obtain ⟨a1, a2, a3, a4⟩ := A
    obtain ⟨b1, b2, b3, b4⟩ := B
    simp only [calculate_iou]
    rw [max_comm a1 b1, max_comm a2 b2, min_comm a3 b3, min_comm a4 b4,
      add_comm ((a3 - a1) * (a4 - a2))]
  · intro A B hA1 hA2 hB1 hB2
    obtain ⟨a1, a2, a3, a4⟩ := A
    obtain ⟨b1, b2, b3, b4⟩ := B
    simp only at hA1 hA2 hB1 hB2
    simp only [calculate_iou]
    set iw : ℤ := max 0 (min a3 b3 - max a1 b1) with hiw
    set ihh : ℤ := max 0 (min a4 b4 - max a2 b2) with hihh
    set inter : ℤ := iw * ihh with hinter
    set area1 : ℤ := (a3 - a1) * (a4 - a2) with harea1
    set area2 : ℤ := (b3 - b1) * (b4 - b2) with harea2
    have hiw0 : 0 ≤ iw := le_max_left _ _
    have hih0 : 0 ≤ ihh := le_max_left _ _
    have hinter0 : 0 ≤ inter := mul_nonneg hiw0 hih0
    have hiwle : iw ≤ a3 - a1 := by rw [hiw]; exact max_le (by omega) (by omega)
    have hihle : ihh ≤ a4 - a2 := by rw [hihh]; exact max_le (by omega) (by omega)
    have hiwle2 : iw ≤ b3 - b1 := by rw [hiw]; exact max_le (by omega) (by omega)
    have hihle2 : ihh ≤ b4 - b2 := by rw [hihh]; exact max_le (by omega) (by omega)
    have h1 : inter ≤ area1 := mul_le_mul hiwle hihle hih0 (by omega)
    have h2 : inter ≤ area2 := mul_le_mul hiwle2 hihle2 hih0 (by omega)
    by_cases hu : (0 : ℤ) < area1 + area2 - inter
    · rw [if_pos hu]
      constructor
      · apply div_nonneg
        · exact_mod_cast hinter0
        · exact_mod_cast le_of_lt hu
      · rw [div_le_one (by exact_mod_cast hu)]
        have : inter ≤ area1 + area2 - inter := by omega
        exact_mod_cast this
    · rw [if_neg hu]
      norm_num
  · intro A h1 h2
    obtain ⟨a1, a2, a3, a4⟩ := A
    simp only at h1 h2
    simp only [calculate_iou, max_self, min_self]
    have hw : (0 : ℤ) ≤ a3 - a1 := by omega
    have hh : (0 : ℤ) ≤ a4 - a2 := by omega
    rw [max_eq_right hw, max_eq_right hh]
    have harea : (0 : ℤ) < (a3 - a1) * (a4 - a2) := mul_pos (by omega) (by omega)
    rw [if_pos (by omega :
      (0 : ℤ) < (a3 - a1) * (a4 - a2) + (a3 - a1) * (a4 - a2) - (a3 - a1) * (a4 - a2))]
    have heq : (a3 - a1) * (a4 - a2) + (a3 - a1) * (a4 - a2) - (a3 - a1) * (a4 - a2)
        = (a3 - a1) * (a4 - a2) := by ring
    rw [heq, div_self]
    exact_mod_cast harea.ne'
  · intro A B h
    obtain ⟨a1, a2, a3, a4⟩ := A
    obtain ⟨b1, b2, b3, b4⟩ := B
    simp only at h
    simp only [calculate_iou]
    have hzero : max 0 (min a3 b3 - max a1 b1) * max 0 (min a4 b4 - max a2 b2) = 0 := by
      rcases h with h | h | h | h
      · rw [max_eq_left (by omega), zero_mul]
      · rw [max_eq_left (sub_nonpos.mpr h), mul_zero]
      · have hcase : a3 - a1 ≤ 0 ∨ a4 - a2 ≤ 0 := by
          by_contra hc
          push_neg at hc
          exact absurd h (not_le.mpr (mul_pos (by omega) (by omega)))
        rcases hcase with hx | hx
        · rw [max_eq_left (show min a3 b3 - max a1 b1 ≤ 0 by omega), zero_mul]
        · rw [max_eq_left (show min a4 b4 - max a2 b2 ≤ 0 by omega), mul_zero]
      · have hcase : b3 - b1 ≤ 0 ∨ b4 - b2 ≤ 0 := by
          by_contra hc
          push_neg at hc
          exact absurd h (not_le.mpr (mul_pos (by omega) (by omega)))
        rcases hcase with hx | hx
        · rw [max_eq_left (show min a3 b3 - max a1 b1 ≤ 0 by omega), zero_mul]
        · rw [max_eq_left (show min a4 b4 - max a2 b2 ≤ 0 by omega), mul_zero]
    rw [hzero]
    split <;> norm_num

/-- Witness for C8 at concrete boxes. -/
theorem c8_witness :
    calculate_iou ((0, 0, 2, 2) : Box) (1, 1, 3, 3) = calculate_iou ((1, 1, 3, 3) : Box) (0, 0, 2, 2)
    ∧ (0 ≤ calculate_iou ((0, 0, 2, 2) : Box) (1, 1, 3, 3)
        ∧ calculate_iou ((0, 0, 2, 2) : Box) (1, 1, 3, 3) ≤ 1)
    ∧ calculate_iou ((0, 0, 2, 2) : Box) (0, 0, 2, 2) = 1
    ∧ calculate_iou ((0, 0, 2, 2) : Box) (5, 5, 6, 6) = 0 :=
  ⟨c8_iou_properties.1 _ _,
   c8_iou_properties.2.1 (0, 0, 2, 2) (1, 1, 3, 3)
     (by norm_num) (by norm_num) (by norm_num) (by norm_num),
   c8_iou_properties.2.2.1 (0, 0, 2, 2) (by norm_num) (by norm_num),
   c8_iou_properties.2.2.2 (0, 0, 2, 2) (5, 5, 6, 6) (Or.inl (by norm_num))⟩

/-- C6: duplicate suppression sorts the detections by confidence descending
(the sorted list is a permutation of the input, in weakly decreasing confidence
order); the output is a sublist of that sorted order (dropped, never merged);
every kept detection has IoU at most the threshold against every earlier-kept
one; every input detection is either kept or has IoU above the threshold with
some kept detection; and on the two concrete boxes `(0,0,100,100)` at
confidence `0.9` and `(5,5,105,105)` at confidence `0.6` (IoU `9025/10975`,
about `0.82`, above `0.65`) only the confidence-`0.9` box survives. -/
theorem c6_duplicate_suppression :
    (∀ (l : List Det) (th : ℚ),
      List.Perm (sortByConfDesc l) l
      ∧ List.Pairwise confGE (sortByConfDesc l)
      ∧ List.Sublist (remove_duplicate_detections l th) (sortByConfDesc l)
      ∧ List.Pairwise (iouOK th) (remove_duplicate_detections l th)
      ∧ (∀ d ∈ l, d ∈ remove_duplicate_detections l th ∨
          ∃ k ∈ remove_duplicate_detections l th, th < calculate_iou d.bbox k.bbox))
    ∧ remove_duplicate_detections [detA, detB] (13/20) = [detA]
    ∧ calculate_iou detA.bbox detB.bbox = 9025/10975 := by
  refine ⟨fun l th => ⟨sortByConfDesc_perm l, sortByConfDesc_sorted l, ?_, ?_, ?_⟩, ?_, ?_⟩
  · by_cases hl : l.length = 0
    · rw [remove_duplicate_detections, if_pos hl, List.length_eq_zero.mp hl]
      exact List.nil_sublist _
    · rw [remove_duplicate_detections, if_neg hl]
      obtain ⟨s, hs, he⟩ := foldl_keepStep_append th (sortByConfDesc l) []
      rw [he]
      simpa using hs
  · by_cases hl : l.length = 0
    · rw [remove_duplicate_detections, if_pos hl, List.length_eq_zero.mp hl]
      exact List.Pairwise.nil
    · rw [remove_duplicate_detections, if_neg hl]
      exact pairwise_foldl_keepStep th _ [] List.Pairwise.nil
  · intro d hd
    by_cases hl : l.length = 0
    · rw [List.length_eq_zero.mp hl] at hd
      exact absurd hd (List.not_mem_nil d)
    · rw [remove_duplicate_detections, if_neg hl]
      exact mem_foldl_keepStep_or th _ [] d ((sortByConfDesc_perm l).mem_iff.mpr hd)
  · norm_num [remove_duplicate_detections, sortByConfDesc, insertByConf, keepStep,
      detA, detB, calculate_iou]
  · norm_num [detA, detB, calculate_iou]

/-- Witness for C6: the dropped detection of the concrete pair indeed has IoU above
the threshold against a kept one. -/
theorem c6_witness :
    detB ∈ remove_duplicate_detections [detA, detB] (13/20) ∨
      ∃ k ∈ remove_duplicate_detections [detA, detB] (13/20),
        (13/20 : ℚ) < calculate_iou detB.bbox k.bbox :=
  (c6_duplicate_suppression.1 [detA, detB] (13/20)).2.2.2.2 detB (by simp)

/-- C7: duplicate suppression is idempotent — applying
`remove_duplicate_detections` to its own output returns that output unchanged,
in the same order, for every input list and every threshold. -/
theorem c7_idempotent (l : List Det) (th : ℚ) :
    remove_duplicate_detections (remove_duplicate_detections l th) th
      = remove_duplicate_detections l th := by
  by_cases hl : l.length = 0
  · rw [List.length_eq_zero.mp hl]
    rfl
  · have hfold : remove_duplicate_detections l th
        = List.foldl (keepStep th) [] (sortByConfDesc l) := by
      rw [remove_duplicate_detections, if_neg hl]
    have hsorted : List.Pairwise confGE (remove_duplicate_detections l th) := by
      rw [hfold]
      obtain ⟨s, hs, he⟩ := foldl_keepStep_append th (sortByConfDesc l) []
      rw [he]
      exact List.Pairwise.sublist (by simpa using hs) (sortByConfDesc_sorted l)
    have hiou : List.Pairwise (iouOK th) (remove_duplicate_detections l th) := by
      rw [hfold]
      exact pairwise_foldl_keepStep th _ [] List.Pairwise.nil
    by_cases ho : (remove_duplicate_detections l th).length = 0
    · rw [remove_duplicate_detections, if_pos ho]
    · rw [remove_duplicate_detections, if_neg ho, sortByConfDesc_eq_self hsorted,
        foldl_keepStep_all_kept th (remove_duplicate_detections l th) [] hiou
          (fun d _ k hk => absurd hk (List.not_mem_nil k)),
        List.nil_append]

/-! ## TrackedVehicle (src/automatic_detector.py, lines 42-175)

The `TrackedVehicle` dataclass with its parked/moving hysteresis. The
position history is a `deque(maxlen=150)` of `(center, timestamp)` pairs
kept oldest-first. `datetime` values become rational timestamps in seconds
(`datetime` objects are always truthy in Python, so `if self.stationary_since:`
tests are `Option` matches here). -/

/-- Append to a `deque(maxlen=cap)`: the oldest entries are dropped once the
capacity is exceeded. -/
def dequeAppend (cap : ℕ) (l : List α) (x : α) : List α :=
  if l.length < cap then l ++ [x] else (l ++ [x]).drop (l.length + 1 - cap)

/-- The `TrackedVehicle` dataclass state. -/
structure TrackedVehicle where
  tracker_id : Int
  class_name : String
  bbox : Box
  confidence : ℚ
  first_seen : ℚ
  last_seen : ℚ
  positions : List ((Int × Int) × ℚ)
  is_parked : Bool
  parked_stable_since : Option ℚ
  stationary_since : Option ℚ
deriving DecidableEq, Repr

/-- `get_center`: the bounding-box center, with Python floor division `//`. -/
def TrackedVehicle.get_center (v : TrackedVehicle) : Int × Int :=
  (Int.fdiv (v.bbox.1 + v.bbox.2.2.1) 2, Int.fdiv (v.bbox.2.1 + v.bbox.2.2.2) 2)

/-- `TrackedVehicle.update(bbox, confidence)`: refresh the box, confidence and
`last_seen`, and append the new center with the current timestamp. -/
def TrackedVehicle.update (v : TrackedVehicle) (bbox : Box) (confidence : ℚ) (now : ℚ) :
    TrackedVehicle :=
  let v' := { v with bbox := bbox, confidence := confidence, last_seen := now }
  { v' with positions := dequeAppend 150 v.positions (v'.get_center, now) }

/-- `np.mean` of a rational list (0 on the empty list, by rational division by zero). -/
def listMean (l : List ℚ) : ℚ := l.sum / l.length

/-- `np.var`: the population variance, mean of squared deviations from the mean. -/
def npVar (l : List ℚ) : ℚ := ((l.map fun x => (x - listMean l)^2).sum) / l.length

/-- The positions whose timestamps lie within the trailing 5-second window:
`[(pos, ts) for pos, ts in positions if (now - ts).total_seconds() <= 5.0]`. -/
def recentPositions (v : TrackedVehicle) (now : ℚ) : List ((Int × Int) × ℚ) :=
  v.positions.filter fun p => decide (now - p.2 ≤ 5)

/-- The data `get_speed_pixels_per_second` computes before its final division:
`none` exactly when the source returns the literal `0.0` early (fewer than 5
samples in the history, fewer than 5 samples within the trailing window, the
variance guard `total_variance < 100`, or a zero time span); otherwise
`some (dsq, span)` where the source's speed is `sqrt(dsq) / span`, with
`dsq` the squared endpoint distance and `span` the elapsed time between the
first and last retained samples. The square root is irrational, so the
threshold comparisons below are encoded square-free, which is exact for the
nonnegative thresholds the source uses (8 and 15). -/
def get_speed_parts (v : TrackedVehicle) (now : ℚ) : Option (ℚ × ℚ) :=
  if v.positions.length < 5 then none
  else if (recentPositions v now).length < 5 then none
  else if npVar ((recentPositions v now).map fun p => (p.1.1 : ℚ))
      + npVar ((recentPositions v now).map fun p => (p.1.2 : ℚ)) < 100 then none
  else
    match (recentPositions v now).head?, (recentPositions v now).getLast? with
    | some f, some lst =>
      if lst.2 - f.2 = 0 then none
      else some (((lst.1.1 : ℚ) - (f.1.1 : ℚ))^2 + ((lst.1.2 : ℚ) - (f.1.2 : ℚ))^2,
        lst.2 - f.2)
    | _, _ => none

/-- The source comparison `speed < th` for a nonnegative threshold `th`:
when the speed parts are `none` the speed is the literal `0.0`; when the span
is positive, `sqrt(dsq)/span < th` iff `dsq < th^2 * span^2`; a negative span
makes the speed nonpositive (`-sqrt(dsq)/|span|`), which is below any positive
threshold and below a zero threshold iff `dsq` is nonzero. -/
def speedLtB (v : TrackedVehicle) (now th : ℚ) : Bool :=
  match get_speed_parts v now with
  | none => decide (0 < th)
  | some (dsq, span) =>
    if 0 < span then decide (dsq < th^2 * span^2)
    else if dsq = 0 then decide (0 < th) else true

/-- The source comparison `speed > 15.0`: true only with a positive span and
`sqrt(dsq)/span > 15`, i.e. `dsq > 225 * span^2`. -/
def speedGt15B (v : TrackedVehicle) (now : ℚ) : Bool :=
  match get_speed_parts v now with
  | none => false
  | some (dsq, span) => decide (0 < span ∧ 225 * span^2 < dsq)

/-- `get_stationary_duration`: seconds since `stationary_since`, `0.0` when unset. -/
def TrackedVehicle.get_stationary_duration (v : TrackedVehicle) (now : ℚ) : ℚ :=
  match v.stationary_since with
  | some t => now - t
  | none => 0

/-- Embedding of `TrackedVehicle.check_if_parked(speed_threshold, time_threshold)`
(source defaults 8.0 and 5.0). Returns the decision and the mutated state. -/
def check_if_parked (v : TrackedVehicle) (speed_threshold time_threshold now : ℚ) :
    Bool × TrackedVehicle :=
  if v.positions.length < 5 then (v.is_parked, v)
  else if v.is_parked then
    if speedGt15B v now && v.parked_stable_since.isSome then
      match v.parked_stable_since with
      | some t =>
        if 3 < now - t then
          (false,
            { v with
              is_parked := false
              stationary_since := none
              parked_stable_since := none })
        else (true, v)
      | none => (true, v)
    else (true, v)
  else
    if speedLtB v now speed_threshold then
      let v1 := if v.stationary_since.isNone then { v with stationary_since := some now } else v
      if time_threshold ≤ v1.get_stationary_duration now then
        (true, { v1 with is_parked := true, parked_stable_since := some now })
      else (false, v1)
    else (false, { v with stationary_since := none })

/-- Failing state for C1: a vehicle stably parked since time `0` with zero movement
(positions pinned at the origin through time `9`), whose final history sample at
time `10` jumps `100` px, making the single current speed estimate `25` px/s. -/
def vC1 : TrackedVehicle where
  tracker_id := 7
  class_name := "car"
  bbox := (0, 0, 40, 40)
  confidence := 9/10
  first_seen := -20
  last_seen := 10
  positions := [(((0 : Int), (0 : Int)), (6 : ℚ)), ((0, 0), 7), ((0, 0), 8), ((0, 0), 9),
    ((100, 0), 10)]
  is_parked := true
  parked_stable_since := some 0
  stationary_since := some (-6)

/-- The same vehicle one second earlier, before the jump: five samples pinned at the
origin, so its estimated speed is zero (in particular not above 15 px/s). -/
def vC1prev : TrackedVehicle :=
  { vC1 with
    last_seen := 9
    positions := [(((0 : Int), (0 : Int)), (5 : ℚ)), ((0, 0), 6), ((0, 0), 7), ((0, 0), 8),
      ((0, 0), 9)] }

/-- C1 (code bug): the claim — and the source's own comment, which asks for movement
above 15 px/s *sustained for 3 or more seconds* before un-parking — is violated by the
implementation, which compares `now - parked_stable_since` (the time since the vehicle
*parked*) against 3 seconds rather than the duration of the fast movement. The vehicle
`vC1` has been parked with zero estimated speed through time `9` (second conjunct), yet
a single update at time `10` whose speed estimate exceeds 15 px/s (third conjunct)
immediately flips it back to MOVING and clears both timers (fourth conjunct). -/
theorem c1_single_high_speed_sample_unparks :
    vC1.is_parked = true
    ∧ speedGt15B vC1prev 9 = false
    ∧ speedGt15B vC1 10 = true
    ∧ check_if_parked vC1 8 5 10
        = (false,
            { vC1 with
              is_parked := false
              stationary_since := none
              parked_stable_since := none }) := by
  refine ⟨rfl, ?_, ?_, ?_⟩
  · norm_num [speedGt15B, get_speed_parts, recentPositions, npVar, listMean, vC1prev, vC1,
      List.filter]
  · norm_num [speedGt15B, get_speed_parts, recentPositions, npVar, listMean, vC1,
      List.filter]
  · norm_num [check_if_parked, speedGt15B, get_speed_parts, recentPositions, npVar,
      listMean, vC1, List.filter]

/-- Counterexample state for C2: a non-parked vehicle whose five history samples all
lie more than 5 seconds in the past at evaluation time `20` (so fewer than the minimum
5 samples fall inside the trailing window), with a stationary timer that was started
at time `10`. -/
def vC2 : TrackedVehicle where
  tracker_id := 9
  class_name := "car"
  bbox := (0, 0, 40, 40)
  confidence := 9/10
  first_seen := 0
  last_seen := 4
  positions := [(((0 : Int), (0 : Int)), (0 : ℚ)), ((0, 0), 1), ((0, 0), 2), ((0, 0), 3),
    ((0, 0), 4)]
  is_parked := false
  parked_stable_since := none
  stationary_since := some 10

/-- Counterexample for C2: at time `20` fewer than 5 of `vC2`'s samples fall within the
trailing 5-second window, yet `check_if_parked` does not hold the previous MOVING
decision — the insufficient-window speed evaluates to the literal `0.0`, the zero-speed
path runs, and the vehicle flips to PARKED. -/
theorem c2_counterexample :
    vC2.is_parked = false
    ∧ 5 ≤ vC2.positions.length
    ∧ (recentPositions vC2 20).length < 5
    ∧ check_if_parked vC2 8 5 20
        = (true, { vC2 with is_parked := true, parked_stable_since := some 20 }) := by
  refine ⟨rfl, by norm_num [vC2], ?_, ?_⟩
  · norm_num [recentPositions, vC2, List.filter]
  · norm_num [check_if_parked, speedLtB, get_speed_parts, recentPositions, npVar,
      listMean, vC2, TrackedVehicle.get_stationary_duration, List.filter]

/-- C2 as amended: with fewer than 5 samples in the whole history the update does hold
the previous decision with the state unchanged; but when at least 5 samples exist and
fewer than 5 fall inside the trailing 5-second window, the speed evaluates to `0.0`
(not "unknown") and the ordinary zero-speed paths run: a PARKED vehicle stays PARKED
with its state unchanged, a non-parked vehicle with no stationary timer starts one at
the current instant, and a non-parked vehicle whose timer is at least `time_threshold`
old flips to PARKED. -/
theorem c2_insufficient_data_amended (v : TrackedVehicle) (th tth now : ℚ) :
    (v.positions.length < 5 → check_if_parked v th tth now = (v.is_parked, v))
    ∧ (5 ≤ v.positions.length → (recentPositions v now).length < 5 →
        (v.is_parked = true → check_if_parked v th tth now = (true, v))
        ∧ (v.is_parked = false → 0 < th → 0 < tth → v.stationary_since = none →
            check_if_parked v th tth now = (false, { v with stationary_since := some now }))
        ∧ (v.is_parked = false → 0 < th →
            ∀ t0, v.stationary_since = some t0 → tth ≤ now - t0 →
              check_if_parked v th tth now
                = (true, { v with is_parked := true, parked_stable_since := some now }))) := by
  constructor
  · intro hlen
    rw [check_if_parked, if_pos hlen]
  · intro hlen hrec
    have hparts : get_speed_parts v now = none := by
      rw [get_speed_parts, if_neg (by omega), if_pos hrec]
    refine ⟨?_, ?_, ?_⟩
    · intro hp
      rw [check_if_parked, if_neg (by omega), if_pos hp]
      have : speedGt15B v now = false := by rw [speedGt15B, hparts]
      simp [this]
    · intro hp hth htth hsn
      rw [check_if_parked, if_neg (by omega), if_neg (by simp [hp]),
        if_pos (show speedLtB v now th = true by rw [speedLtB, hparts]; simpa using hth)]
      have hne : ¬ tth ≤ now - now := by rw [sub_self]; exact not_le.mpr htth
      simp [TrackedVehicle.get_stationary_duration, hsn, hne, htth]
    · intro hp hth t0 hs0 hdur
      rw [check_if_parked, if_neg (by omega), if_neg (by simp [hp]),
        if_pos (show speedLtB v now th = true by rw [speedLtB, hparts]; simpa using hth)]
      simp [TrackedVehicle.get_stationary_duration, hs0, hdur]

/-- A vehicle with a single history sample, for the hold-unchanged conjunct. -/
def vC2short : TrackedVehicle :=
  { vC2 with positions := [(((0 : Int), (0 : Int)), (0 : ℚ))] }

/-- A parked vehicle with the same stale history, for the stays-parked conjunct. -/
def vC2parked : TrackedVehicle :=
  { vC2 with
    is_parked := true
    stationary_since := some 2
    parked_stable_since := some 8 }

/-- Witness for the amended C2 at concrete vehicles. -/
theorem c2_witness :
    check_if_parked vC2short 8 5 20 = (vC2short.is_parked, vC2short)
    ∧ check_if_parked vC2parked 8 5 20 = (true, vC2parked)
    ∧ check_if_parked vC2 8 5 20
        = (true, { vC2 with is_parked := true, parked_stable_since := some 20 }) :=
  ⟨(c2_insufficient_data_amended vC2short 8 5 20).1 (by norm_num [vC2short, vC2]),
   ((c2_insufficient_data_amended vC2parked 8 5 20).2
       (by norm_num [vC2parked, vC2])
       (by norm_num [recentPositions, vC2parked, vC2, List.filter])).1 rfl,
   ((c2_insufficient_data_amended vC2 8 5 20).2
       (by norm_num [vC2])
       (by norm_num [recentPositions, vC2, List.filter])).2.2 rfl (by norm_num) 10 rfl
     (by norm_num)⟩

/-! ## ParkingSlot and the occupancy debounce
(src/smart_parking_mvp/smart_parking_mvp.py, lines 30-103 and 303-344)

The slot's polygon and `check_overlap` go through shapely (external geometry,
out of core scope); `update_occupancy` consumes one overlap ratio per vehicle
per slot, so the embedding of the per-slot update takes the list of
`(vehicle id, overlap ratio with this slot)` pairs as input. Timestamps are
`time.time()` floats, so Python truthiness on them treats `0.0` as falsy. -/

/-- Python truthiness of an optional integer identifier (`if vehicle_id:`):
`None` and `0` are falsy. -/
def idTruthy : Option Int → Bool
  | none => false
  | some n => decide (n ≠ 0)

/-- Python truthiness of an optional `time.time()` stamp (`if self.occupied_since:`):
`None` and `0.0` are falsy. -/
def qTruthy : Option ℚ → Bool
  | none => false
  | some t => decide (t ≠ 0)

/-- The `ParkingSlot` state (polygon omitted — geometry is external). -/
structure ParkingSlot where
  id : Int
  is_occupied : Bool
  occupied_since : Option ℚ
  last_vacant : ℚ
  occupying_vehicle_id : Option Int
  vacant_frames : ℕ
  occupied_frames : ℕ
  total_occupancies : ℕ
  total_duration : ℚ
deriving DecidableEq, Repr

/-- `ParkingSlot.mark_occupied(vehicle_id)`: first occupation records the occupant and
starts the timer; a different truthy occupant on an occupied slot banks the elapsed
duration and restarts the timer ("occupant substitution"); in all cases the slot ends
occupied with the vacant-debounce counter cleared. -/
def mark_occupied (s : ParkingSlot) (vehicle_id : Option Int) (now : ℚ) : ParkingSlot :=
  let s1 :=
    if s.is_occupied = false then
      { s with
        is_occupied := true
        occupied_since := some now
        occupying_vehicle_id := vehicle_id
        total_occupancies := s.total_occupancies + 1 }
    else if idTruthy vehicle_id && idTruthy s.occupying_vehicle_id
        && decide (vehicle_id ≠ s.occupying_vehicle_id) then
      { s with
        total_duration := s.total_duration +
          (if qTruthy s.occupied_since then now - s.occupied_since.getD 0 else 0)
        occupied_since := some now
        occupying_vehicle_id := vehicle_id
        total_occupancies := s.total_occupancies + 1 }
    else s
  { s1 with is_occupied := true, vacant_frames := 0 }

/-- `ParkingSlot.mark_vacant()`: an occupied slot banks its elapsed duration and clears
occupant and timer; the occupied-debounce counter is cleared in all cases. -/
def mark_vacant (s : ParkingSlot) (now : ℚ) : ParkingSlot :=
  let s1 :=
    if s.is_occupied then
      { s with
        total_duration := s.total_duration +
          (if qTruthy s.occupied_since then now - s.occupied_since.getD 0 else 0)
        is_occupied := false
        occupied_since := none
        occupying_vehicle_id := none
        last_vacant := now }
    else s
  { s1 with occupied_frames := 0 }

/-- One vehicle as one slot sees it: its track id and its overlap ratio with the slot. -/
abbrev VehicleOverlap := Int × ℚ

/-- The best-overlap scan of `update_occupancy`: running maximum starting from
`(0.0, None)`, strict improvement only. -/
def bestMatch (vehicles : List VehicleOverlap) : ℚ × Option Int :=
  vehicles.foldl (fun b v => if b.1 < v.2 then (v.2, some v.1) else b) (0, none)

/-- Embedding of the per-slot body of `SmartParkingMVP.update_occupancy`:
occupied slots vacate after `vacant_frames` reaches 2 below overlap `0.2`
(1 frame below `0.05`), re-mark on occupant change at overlap at least `0.2`;
vacant slots occupy after 2 consecutive frames above overlap `0.4`. -/
def update_occupancy_slot (s : ParkingSlot) (vehicles : List VehicleOverlap) (now : ℚ) :
    ParkingSlot :=
  let bo := (bestMatch vehicles).1
  let bv := (bestMatch vehicles).2
  if s.is_occupied then
    if bo < 1/5 then
      let s1 := { s with vacant_frames := s.vacant_frames + 1 }
      let frames_needed : ℕ := if bo < 1/20 then 1 else 2
      if frames_needed ≤ s1.vacant_frames then mark_vacant s1 now else s1
    else
      let s1 := { s with vacant_frames := 0 }
      match bv with
      | some i =>
        if some i ≠ s1.occupying_vehicle_id then mark_occupied s1 (some i) now else s1
      | none => s1
  else
    if 2/5 < bo then
      let s1 := { s with occupied_frames := s.occupied_frames + 1 }
      if 2 ≤ s1.occupied_frames then
        match bv with
        | some i => mark_occupied s1 (some i) now
        | none => s1
      else s1
    else { s with occupied_frames := 0 }

lemma bestMatch_single (i : Int) (o : ℚ) (h : 0 < o) : bestMatch [(i, o)] = (o, some i) := by
  simp [bestMatch, h]

/-- C4: from an occupied slot with a clear vacant-debounce counter, occupied by
vehicle `i`: (a) a one-frame overlap dip to `0.15` followed by a frame back at `0.5`
leaves the slot occupied with the counter reset to `0`; (b) overlap below `0.2`
(but at least `0.05`) sustained for two consecutive frames vacates the slot;
(c) a single frame with overlap below `0.05` vacates it. -/
theorem c4_vacancy_debounce (s : ParkingSlot) (i : Int) (t1 t2 t3 : ℚ)
    (hocc : s.is_occupied = true) (hvf : s.vacant_frames = 0)
    (hid : s.occupying_vehicle_id = some i) :
    ((update_occupancy_slot s [(i, 3/20)] t1).is_occupied = true
      ∧ (update_occupancy_slot s [(i, 3/20)] t1).vacant_frames = 1
      ∧ (update_occupancy_slot (update_occupancy_slot s [(i, 3/20)] t1)
          [(i, 1/2)] t2).is_occupied = true
      ∧ (update_occupancy_slot (update_occupancy_slot s [(i, 3/20)] t1)
          [(i, 1/2)] t2).vacant_frames = 0)
    ∧ (∀ o1 o2 : ℚ, 1/20 ≤ o1 → o1 < 1/5 → 1/20 ≤ o2 → o2 < 1/5 →
        (update_occupancy_slot (update_occupancy_slot s [(i, o1)] t1)
          [(i, o2)] t2).is_occupied = false)
    ∧ (∀ o : ℚ, 0 ≤ o → o < 1/20 →
        (update_occupancy_slot s [(i, o)] t3).is_occupied = false) := by
  have hdip : ∀ (o : ℚ) (t : ℚ), 1/20 ≤ o → o < 1/5 →
      update_occupancy_slot s [(i, o)] t = { s with vacant_frames := 1 } := by
    intro o t h1 h2
    rw [update_occupancy_slot]
    simp only [bestMatch_single i o (by linarith), hocc, if_true]
    rw [if_pos h2, if_neg (by linarith : ¬ o < 1/20)]
    simp [hvf]
  refine ⟨?_, ?_, ?_⟩
  · have h2 : update_occupancy_slot { s with vacant_frames := 1 } [(i, 1/2)] t2
        = { s with vacant_frames := 0 } := by
      rw [update_occupancy_slot]
      simp only [bestMatch_single i (1/2) (by norm_num), hocc, if_true]
      rw [if_neg (by norm_num : ¬ (1/2 : ℚ) < 1/5)]
      simp [hid]
    rw [hdip (3/20) t1 (by norm_num) (by norm_num), h2]
    exact ⟨hocc, rfl, hocc, rfl⟩
  · intro o1 o2 ho1a ho1b ho2a ho2b
    rw [hdip o1 t1 ho1a ho1b, update_occupancy_slot]
    simp only [bestMatch_single i o2 (by linarith), hocc, if_true]
    rw [if_pos ho2b, if_neg (by linarith : ¬ o2 < 1/20)]
    simp [mark_vacant, hocc]
  · intro o ho1 ho2
    rcases ho1.lt_or_eq with hpos | hzero
    · rw [update_occupancy_slot]
      simp only [bestMatch_single i o hpos, hocc, if_true]
      rw [if_pos (by linarith : o < 1/5), if_pos ho2]
      simp [mark_vacant, hocc, hvf]
    · rw [update_occupancy_slot]
      have hb : bestMatch [(i, o)] = (0, none) := by
        subst hzero
        simp [bestMatch]
      simp only [hb, hocc, if_true]
      rw [if_pos (by norm_num : (0 : ℚ) < 1/5), if_pos (by norm_num : (0 : ℚ) < 1/20)]
      simp [mark_vacant, hocc, hvf]

/-- Witness for C4 at a concrete slot. -/
def slotC4 : ParkingSlot where
  id := 3
  is_occupied := true
  occupied_since := some 50
  last_vacant := 0
  occupying_vehicle_id := some 11
  vacant_frames := 0
  occupied_frames := 0
  total_occupancies := 2
  total_duration := 30

/-- Witness for C4: the transient-dip, sustained-low and near-zero behaviors at the
concrete slot `slotC4`. -/
theorem c4_witness :
    ((update_occupancy_slot slotC4 [(11, 3/20)] 60).is_occupied = true
      ∧ (update_occupancy_slot slotC4 [(11, 3/20)] 60).vacant_frames = 1
      ∧ (update_occupancy_slot (update_occupancy_slot slotC4 [(11, 3/20)] 60)
          [(11, 1/2)] 61).is_occupied = true
      ∧ (update_occupancy_slot (update_occupancy_slot slotC4 [(11, 3/20)] 60)
          [(11, 1/2)] 61).vacant_frames = 0)
    ∧ (update_occupancy_slot (update_occupancy_slot slotC4 [(11, 3/20)] 60)
        [(11, 3/20)] 61).is_occupied = false
    ∧ (update_occupancy_slot slotC4 [(11, 1/100)] 60).is_occupied = false :=
  ⟨(c4_vacancy_debounce slotC4 11 60 61 62 rfl rfl rfl).1,
   (c4_vacancy_debounce slotC4 11 60 61 62 rfl rfl rfl).2.1 (3/20) (3/20)
     (by norm_num) (by norm_num) (by norm_num) (by norm_num),
   (c4_vacancy_debounce slotC4 11 60 62 60 rfl rfl rfl).2.2 (1/100)
     (by norm_num) (by norm_num)⟩

/-- Concrete occupied slot for C5: occupied by vehicle `5` since time `100`. -/
def slotC5 : ParkingSlot where
  id := 1
  is_occupied := true
  occupied_since := some 100
  last_vacant := 0
  occupying_vehicle_id := some 5
  vacant_frames := 0
  occupied_frames := 0
  total_occupancies := 1
  total_duration := 0

/-- Counterexample for C5: vehicle `0` is a different identifier from the recorded
occupant `5` and achieves overlap `0.5`, yet because Python's `if vehicle_id:` treats
the integer `0` as falsy, `mark_occupied` skips the substitution branch entirely —
the slot keeps occupant `5`, its timer, and its occupancy count, instead of re-marking
with the new identifier and resetting the timer as the claim states. -/
theorem c5_counterexample :
    (update_occupancy_slot slotC5 [(0, 1/2)] 200).occupying_vehicle_id = some 5
    ∧ (update_occupancy_slot slotC5 [(0, 1/2)] 200).occupying_vehicle_id ≠ some 0
    ∧ (update_occupancy_slot slotC5 [(0, 1/2)] 200).total_occupancies = 1
    ∧ (update_occupancy_slot slotC5 [(0, 1/2)] 200).occupied_since = some 100 := by
  norm_num [update_occupancy_slot, bestMatch, mark_occupied, idTruthy, slotC5]

/-- C5 as amended: occupant substitution behaves as claimed provided both the new and
the recorded identifiers are nonzero (Python truthiness in `mark_occupied` skips the
substitution when either identifier is `0` or missing) and the recorded start time is
truthy: a different vehicle `i` whose overlap is at least `0.2` re-marks the occupied
slot with identifier `i`, restarts the timer at the current instant, banks the previous
occupant's elapsed duration into the cumulative total, increments the occupancy count,
and never passes through a vacant state (`is_occupied` stays true and `last_vacant`,
`occupied_frames` are untouched). -/
theorem c5_substitution_amended (s : ParkingSlot) (i j : Int) (o t t0 : ℚ)
    (hocc : s.is_occupied = true) (hj : s.occupying_vehicle_id = some j)
    (hsince : s.occupied_since = some t0) (ht0 : t0 ≠ 0)
    (hi0 : i ≠ 0) (hj0 : j ≠ 0) (hij : i ≠ j) (ho : 1/5 ≤ o) :
    update_occupancy_slot s [(i, o)] t
      = { s with
          is_occupied := true
          vacant_frames := 0
          occupied_since := some t
          occupying_vehicle_id := some i
          total_occupancies := s.total_occupancies + 1
          total_duration := s.total_duration + (t - t0) } := by
  rw [update_occupancy_slot]
  simp only [bestMatch_single i o (by linarith), hocc, if_true]
  rw [if_neg (by linarith : ¬ o < 1/5)]
  have hne : (some i : Option Int) ≠ s.occupying_vehicle_id := by
    rw [hj]
    simp [hij]
  rw [if_pos hne, mark_occupied]
  simp [idTruthy, qTruthy, hj, hi0, hj0, hij, hsince, ht0, hocc]

/-- Witness for the amended C5 at the concrete slot `slotC5`. -/
theorem c5_witness :
    update_occupancy_slot slotC5 [(7, 1/2)] 200
      = { slotC5 with
          is_occupied := true
          vacant_frames := 0
          occupied_since := some 200
          occupying_vehicle_id := some 7
          total_occupancies := slotC5.total_occupancies + 1
          total_duration := slotC5.total_duration + (200 - 100) } :=
  c5_substitution_amended slotC5 7 5 (1/2) 200 100 rfl rfl rfl (by norm_num)
    (by decide) (by decide) (by decide) (by norm_num)

/-! ## Dictionaries keyed by track id

Python `dict` with integer keys: lookup, set (replace in place when the key is
present, append otherwise — insertion order is preserved, as in CPython), and
delete. Embedded as association lists. -/

/-- Dictionary lookup. -/
def alookup {β : Type} : List (Int × β) → Int → Option β
  | [], _ => none
  | p :: t, i => if p.1 = i then some p.2 else alookup t i

/-- Dictionary assignment `d[i] = v`. -/
def aset {β : Type} : List (Int × β) → Int → β → List (Int × β)
  | [], i, v => [(i, v)]
  | p :: t, i, v => if p.1 = i then (i, v) :: t else p :: aset t i v

/-- Dictionary deletion `del d[i]`. -/
def aerase {β : Type} (l : List (Int × β)) (i : Int) : List (Int × β) :=
  l.filter fun p => decide (p.1 ≠ i)

/-- The key list of a dictionary. -/
def akeys {β : Type} (l : List (Int × β)) : List Int := l.map Prod.fst

lemma alookup_aset_self {β : Type} (l : List (Int × β)) (i : Int) (v : β) :
    alookup (aset l i v) i = some v := by
  induction l with
  | nil => simp [aset, alookup]
  | cons p t ih =>
    by_cases h : p.1 = i
    · simp [aset, h, alookup]
    · simp [aset, h, alookup, ih]

lemma akeys_cons {β : Type} (p : Int × β) (t : List (Int × β)) :
    akeys (p :: t) = p.1 :: akeys t := rfl

lemma alookup_aset_ne {β : Type} (l : List (Int × β)) (i j : Int) (v : β) (h : j ≠ i) :
    alookup (aset l i v) j = alookup l j := by
  induction l with
  | nil => simp [aset, alookup, show i ≠ j from fun he => h he.symm]
  | cons p t ih =>
    rw [aset]
    by_cases hp : p.1 = i
    · rw [if_pos hp]
      have hij : i ≠ j := fun he => h he.symm
      have hpj : p.1 ≠ j := fun he => h (hp.symm.trans he).symm
      simp [alookup, hij, hpj]
    · rw [if_neg hp]
      by_cases hq : p.1 = j
      · simp [alookup, hq]
      · simp [alookup, hq, ih]

lemma mem_akeys_aset {β : Type} (l : List (Int × β)) (i k : Int) (v : β) :
    k ∈ akeys (aset l i v) ↔ k = i ∨ k ∈ akeys l := by
  induction l with
  | nil => simp [aset, akeys]
  | cons p t ih =>
    rw [aset]
    by_cases h : p.1 = i
    · rw [if_pos h, akeys_cons, List.mem_cons, akeys_cons, List.mem_cons, h]
      tauto
    · rw [if_neg h, akeys_cons, List.mem_cons, ih, akeys_cons, List.mem_cons]
      tauto

lemma mem_akeys_aerase {β : Type} (l : List (Int × β)) (i k : Int) :
    k ∈ akeys (aerase l i) ↔ k ∈ akeys l ∧ k ≠ i := by
  induction l with
  | nil => simp [aerase, akeys]
  | cons p t ih =>
    rw [aerase, List.filter_cons]
    by_cases h : p.1 = i
    · rw [if_neg (by simp [h])]
      rw [show List.filter (fun p => decide (p.1 ≠ i)) t = aerase t i from rfl, ih,
        akeys_cons, List.mem_cons]
      constructor
      · rintro ⟨hk, hne⟩
        exact ⟨Or.inr hk, hne⟩
      · rintro ⟨hk | hk, hne⟩
        · exact absurd (hk.trans h) hne
        · exact ⟨hk, hne⟩
    · rw [if_pos (by simp [h])]
      rw [akeys_cons, List.mem_cons,
        show List.filter (fun p => decide (p.1 ≠ i)) t = aerase t i from rfl, ih,
        akeys_cons, List.mem_cons]
      constructor
      · rintro (hk | ⟨hk, hne⟩)
        · exact ⟨Or.inl hk, hk ▸ h⟩
        · exact ⟨Or.inr hk, hne⟩
      · rintro ⟨hk | hk, hne⟩
        · exact Or.inl hk
        · exact Or.inr ⟨hk, hne⟩

lemma alookup_eq_none_iff {β : Type} (l : List (Int × β)) (i : Int) :
    alookup l i = none ↔ i ∉ akeys l := by
  induction l with
  | nil => simp [alookup, akeys]
  | cons p t ih =>
    by_cases h : p.1 = i
    · simp [alookup, akeys, h]
    · simp [alookup, akeys, h, ih, Ne.symm h]

lemma mem_akeys_of_alookup {β : Type} {l : List (Int × β)} {i : Int} {v : β}
    (h : alookup l i = some v) : i ∈ akeys l := by
  by_contra hc
  rw [← alookup_eq_none_iff] at hc
  rw [h] at hc
  exact Option.noConfusion hc

/-! ## StabilityFilter (src/smart_parking_mvp/tracker.py, lines 284-355)

`StabilityFilter()` with its default `history_length=5`,
`min_consistent_frames=3`: a rolling `deque(maxlen=5)` of recent raw
detections per identifier, with acceptance on the first appearance only at
confidence above 0.6, and from the third recorded appearance on at rolling
average confidence above 0.35. -/

/-- One entry of the rolling detection history. -/
structure HistEntry where
  bbox : Box
  confidence : ℚ
  class_id : Int
deriving DecidableEq, Repr

/-- The filter's `detection_history` dictionary. -/
abbrev FilterHist := List (Int × List HistEntry)

/-- `history_length` default. -/
def history_length : ℕ := 5

/-- `min_consistent_frames` default. -/
def min_consistent_frames : ℕ := 3

/-- `np.mean` of the confidences in a history window. -/
def histAvg (l : List HistEntry) : ℚ := (l.map HistEntry.confidence).sum / l.length

/-- Intermediate state of the `filter_detections` loop: the history map, the
accepted (stable) detections so far, and the identifiers seen this frame. -/
structure FilterPass where
  hist : FilterHist
  out : List Det
  ids : List Int
deriving DecidableEq, Repr

/-- One iteration of the `filter_detections` loop: skip identifier-less
detections; append to the identifier's rolling history; accept a first
appearance above confidence 0.6 immediately, or any appearance from the
`min_consistent_frames`-th on whose rolling average confidence exceeds 0.35. -/
def filterStep (acc : FilterPass) (det : Det) : FilterPass :=
  match det.track_id with
  | none => acc
  | some i =>
    let ids' := if i ∈ acc.ids then acc.ids else acc.ids ++ [i]
    let newHist := dequeAppend history_length ((alookup acc.hist i).getD [])
      ⟨det.bbox, det.confidence, det.class_id⟩
    let hist' := aset acc.hist i newHist
    if newHist.length = 1 ∧ 3/5 < det.confidence then
      ⟨hist', acc.out ++ [det], ids'⟩
    else if min_consistent_frames ≤ newHist.length ∧ 7/20 < histAvg newHist then
      ⟨hist', acc.out ++ [det], ids'⟩
    else ⟨hist', acc.out, ids'⟩

/-- Embedding of `StabilityFilter.filter_detections`: run the loop, then drop
histories of identifiers absent this frame whose history is already full. -/
def filter_detections (hist : FilterHist) (dets : List Det) : FilterHist × List Det :=
  let acc := dets.foldl filterStep ⟨hist, [], []⟩
  (acc.hist.filter fun p =>
      decide (p.1 ∈ acc.ids) || decide (p.2.length < history_length),
    acc.out)

lemma filterStep_out_mono :
    ∀ (l : List Det) (acc : FilterPass) (x : Det),
      x ∈ (List.foldl filterStep acc l).out → x ∈ acc.out ∨ x ∈ l
  | [], _, x, hx => Or.inl hx
  | d :: t, acc, x, hx => by
    rw [List.foldl_cons] at hx
    rcases filterStep_out_mono t (filterStep acc d) x hx with hx | hx
    · rw [filterStep] at hx
      rcases hd : d.track_id with _ | i
      · rw [hd] at hx
        exact Or.inl hx
      · rw [hd] at hx
        simp only at hx
        split at hx
        · rcases List.mem_append.mp hx with hx | hx
          · exact Or.inl hx
          · rw [List.mem_singleton] at hx
            exact Or.inr (hx ▸ List.mem_cons_self d t)
        · split at hx
          · rcases List.mem_append.mp hx with hx | hx
            · exact Or.inl hx
            · rw [List.mem_singleton] at hx
              exact Or.inr (hx ▸ List.mem_cons_self d t)
          · exact Or.inl hx
    · exact Or.inr (List.mem_cons_of_mem d hx)

lemma filterStep_hist_preserved (i : Int) :
    ∀ (l : List Det) (acc : FilterPass), (∀ d ∈ l, d.track_id ≠ some i) →
      alookup (List.foldl filterStep acc l).hist i = alookup acc.hist i
  | [], _, _ => rfl
  | d :: t, acc, h => by
    rw [List.foldl_cons]
    rw [filterStep_hist_preserved i t (filterStep acc d)
      (fun d' hd' => h d' (List.mem_cons_of_mem d hd'))]
    rw [filterStep]
    rcases hd : d.track_id with _ | j
    · rfl
    · have hji : j ≠ i := fun he => h d (List.mem_cons_self d t) (he ▸ hd)
      simp only
      split
      · exact alookup_aset_ne _ _ _ _ (Ne.symm hji)
      · split
        · exact alookup_aset_ne _ _ _ _ (Ne.symm hji)
        · exact alookup_aset_ne _ _ _ _ (Ne.symm hji)

/-- C9: a detection whose identifier has exactly one prior entry in the rolling
history — so this frame is its second recorded appearance — is excluded from the
stable output regardless of its confidence: immediate acceptance applies only at
history length 1 and the consistency path requires at least 3 entries, and a
length of exactly 2 satisfies neither. -/
theorem c9_second_appearance_suppressed (hist : FilterHist) (l1 l2 : List Det)
    (d : Det) (i : Int) (hd : d.track_id = some i)
    (hlen : ((alookup hist i).getD []).length = 1)
    (h1 : ∀ d' ∈ l1, d'.track_id ≠ some i)
    (h2 : ∀ d' ∈ l2, d'.track_id ≠ some i) :
    d ∉ (filter_detections hist (l1 ++ d :: l2)).2 := by
  intro hmem
  rw [filter_detections] at hmem
  simp only at hmem
  rw [List.foldl_append, List.foldl_cons] at hmem
  set acc1 := List.foldl filterStep ⟨hist, [], []⟩ l1 with hacc1
  have hhist1 : alookup acc1.hist i = alookup hist i :=
    filterStep_hist_preserved i l1 _ h1
  have hout1 : ∀ x ∈ acc1.out, x ∈ l1 := by
    intro x hx
    rcases filterStep_out_mono l1 _ x hx with hx | hx
    · exact absurd hx (List.not_mem_nil x)
    · exact hx
  have hstep : (filterStep acc1 d).out = acc1.out := by
    rw [filterStep, hd]
    simp only
    have hnl : (dequeAppend history_length ((alookup acc1.hist i).getD [])
        ⟨d.bbox, d.confidence, d.class_id⟩).length = 2 := by
      rw [hhist1, dequeAppend, if_pos (by rw [hlen]; norm_num [history_length])]
      rw [List.length_append, hlen]
      rfl
    rw [if_neg (by rw [hnl]; norm_num), if_neg (by rw [hnl]; norm_num [min_consistent_frames])]
  rcases filterStep_out_mono l2 (filterStep acc1 d) d hmem with hx | hx
  · rw [hstep] at hx
    exact h1 d (hout1 d hx) hd
  · exact h2 d hx hd

/-- Concrete one-entry history for the C9 witness: identifier 4 was recorded once. -/
def histC9 : FilterHist := [(4, [⟨(0, 0, 10, 10), 1, 2⟩])]

/-- Concrete second appearance of identifier 4 at full confidence 1.0. -/
def detC9 : Det :=
  { track_id := some 4, bbox := (0, 0, 10, 10), confidence := 1,
    class_id := 2, class_name := "car", center := (5, 5) }

/-- Witness for C9: the confidence-1.0 second appearance is suppressed. -/
theorem c9_witness : detC9 ∉ (filter_detections histC9 [detC9]).2 :=
  c9_second_appearance_suppressed histC9 [] [] detC9 4 rfl
    (by norm_num [histC9, alookup])
    (fun d' hd' => absurd hd' (List.not_mem_nil d'))
    (fun d' hd' => absurd hd' (List.not_mem_nil d'))

/-! ## VehicleTracker (src/smart_parking_mvp/tracker.py, lines 75-281)

The per-vehicle tracker with its MOVING/STOPPED/PARKED status machine, driven
by the `config.py` constants. The `total_distance` and `avg_speed` fields are
omitted from the state: they accumulate Euclidean square roots (irrational),
and the source reads them only in the reporting method `get_stats` — no
control flow depends on them. The motion comparison
`distance >= MOTION_THRESHOLD` is embedded on squared distances
(`25 ≤ distSq`), which is exact because both sides are nonnegative. -/

/-- `config.TRACK_HISTORY_LENGTH`. -/
def TRACK_HISTORY_LENGTH : ℕ := 60

/-- `config.MAX_TRACKED_VEHICLES`. -/
def MAX_TRACKED_VEHICLES : ℕ := 30

/-- `config.STATIONARY_FRAMES`. -/
def STATIONARY_FRAMES : ℕ := 15

/-- `config.MOVING_FRAMES`. -/
def MOVING_FRAMES : ℕ := 3

/-- The `VehicleTracker` state. -/
structure VehicleTracker where
  track_id : Int
  class_id : Int
  class_name : String
  positions : List (Int × Int)
  bboxes : List Box
  is_moving : Bool
  consecutive_moving_frames : ℕ
  consecutive_stationary_frames : ℕ
  status : String
  occluded : Bool
  confidence_history : List ℚ
  stationary_start_time : Option ℚ
  park_duration : ℚ
  first_seen : ℚ
  last_seen : ℚ
  total_frames : ℕ
  current_position : Int × Int
  current_bbox : Box
  current_confidence : ℚ
  lost_frames : ℕ
deriving DecidableEq, Repr

/-- `VehicleTracker.__init__`. -/
def mkVehicleTracker (track_id class_id : Int) (class_name : String)
    (initial_position : Int × Int) (initial_bbox : Box) (now : ℚ) : VehicleTracker where
  track_id := track_id
  class_id := class_id
  class_name := class_name
  positions := [initial_position]
  bboxes := [initial_bbox]
  is_moving := false
  consecutive_moving_frames := 0
  consecutive_stationary_frames := 0
  status := "MOVING"
  occluded := false
  confidence_history := [1]
  stationary_start_time := none
  park_duration := 0
  first_seen := now
  last_seen := now
  total_frames := 1
  current_position := initial_position
  current_bbox := initial_bbox
  current_confidence := 1
  lost_frames := 0

/-- `VehicleTracker._update_motion_state(distance)`, on the squared distance. -/
def motionState (tr : VehicleTracker) (distSq : ℚ) (now : ℚ) : VehicleTracker :=
  if 25 ≤ distSq then
    let tr1 := { tr with
      consecutive_moving_frames := tr.consecutive_moving_frames + 1
      consecutive_stationary_frames := 0 }
    if MOVING_FRAMES ≤ tr1.consecutive_moving_frames then
      { tr1 with is_moving := true, status := "MOVING", stationary_start_time := none }
    else tr1
  else
    let tr1 := { tr with
      consecutive_stationary_frames := tr.consecutive_stationary_frames + 1
      consecutive_moving_frames := 0 }
    if STATIONARY_FRAMES ≤ tr1.consecutive_stationary_frames then
      { tr1 with
        is_moving := false
        stationary_start_time :=
          if tr1.stationary_start_time = none then some now else tr1.stationary_start_time }
    else tr1

/-- `VehicleTracker._update_parking_status()`: MOVING clears the park duration;
a running stationary timer yields STOPPED below 1.5 s and PARKED at or above it. -/
def parkingStatus (tr : VehicleTracker) (now : ℚ) : VehicleTracker :=
  if tr.is_moving then { tr with status := "MOVING", park_duration := 0 }
  else
    match tr.stationary_start_time with
    | some t =>
      { tr with
        park_duration := now - t
        status := if 3/2 ≤ now - t then "PARKED" else "STOPPED" }
    | none => { tr with status := "STOPPED", park_duration := 0 }

/-- `VehicleTracker.update(position, bbox, confidence)`: append to the bounded
histories, update the motion state from the squared distance to the previous
position (when at least two positions exist), refresh the current fields, and
recompute the parking status. -/
def VehicleTracker.update (tr : VehicleTracker) (position : Int × Int) (bbox : Box)
    (confidence : ℚ) (now : ℚ) : VehicleTracker :=
  let tr1 := { tr with
    positions := dequeAppend TRACK_HISTORY_LENGTH tr.positions position
    bboxes := dequeAppend TRACK_HISTORY_LENGTH tr.bboxes bbox
    confidence_history := dequeAppend 5 tr.confidence_history confidence }
  let tr2 :=
    if 2 ≤ tr1.positions.length then
      match tr.positions.getLast? with
      | some prev =>
        motionState tr1
          (((position.1 - prev.1 : ℤ) : ℚ)^2 + ((position.2 - prev.2 : ℤ) : ℚ)^2) now
      | none => tr1
    else tr1
  let tr3 := { tr2 with
    current_position := position
    current_bbox := bbox
    current_confidence := confidence
    last_seen := now
    total_frames := tr2.total_frames + 1
    lost_frames := 0
    occluded := false }
  parkingStatus tr3 now

/-! ## TrackingManager (src/smart_parking_mvp/tracker.py, lines 358-526) -/

/-- `self.max_lost_frames = 30`. -/
def max_lost_frames : ℕ := 30

/-- The `TrackingManager` state, including its owned `StabilityFilter` history. -/
structure TrackingManager where
  active_tracks : List (Int × VehicleTracker)
  lost_tracks : List (Int × Int × VehicleTracker)
  current_frame : Int
  total_tracked : ℕ
  total_lost : ℕ
  filter_hist : FilterHist
deriving DecidableEq, Repr

/-- `TrackingManager.__init__`. -/
def initManager : TrackingManager where
  active_tracks := []
  lost_tracks := []
  current_frame := 0
  total_tracked := 0
  total_lost := 0
  filter_hist := []

/-- `TrackingManager.reset()` — note it does not clear the stability filter. -/
def resetManager (m : TrackingManager) : TrackingManager :=
  { m with
    active_tracks := []
    lost_tracks := []
    total_tracked := 0
    total_lost := 0
    current_frame := 0 }

/-- Intermediate state of the detection loop in `update_trackers`. -/
structure DetPass where
  active : List (Int × VehicleTracker)
  lost : List (Int × Int × VehicleTracker)
  ids : List Int
  total_tracked : ℕ
deriving DecidableEq, Repr

/-- One iteration of the detection loop of `update_trackers`: restore a lost
track with this identifier, then update the active track, or create a new one
subject to the `MAX_TRACKED_VEHICLES` cap. -/
def detStep (now : ℚ) (acc : DetPass) (det : Det) : DetPass :=
  match det.track_id with
  | none => acc
  | some i =>
    let ids' := if i ∈ acc.ids then acc.ids else acc.ids ++ [i]
    let restored :=
      match alookup acc.lost i with
      | some p => (aset acc.active i p.2, aerase acc.lost i)
      | none => (acc.active, acc.lost)
    match alookup restored.1 i with
    | some tr =>
      ⟨aset restored.1 i (tr.update det.center det.bbox det.confidence now),
        restored.2, ids', acc.total_tracked⟩
    | none =>
      if restored.1.length < MAX_TRACKED_VEHICLES then
        ⟨restored.1 ++
            [(i, mkVehicleTracker i det.class_id det.class_name det.center det.bbox now)],
          restored.2, ids', acc.total_tracked + 1⟩
      else ⟨restored.1, restored.2, ids', acc.total_tracked⟩

/-- Embedding of `TrackingManager.update_trackers(detections, frame_number)`:
advance the frame counter, stability-filter the detections, run the detection
loop, move actives absent this frame into the lost dictionary tagged with the
current frame and `occluded=True`, and evict lost entries older than
`max_lost_frames`, counting them in `total_lost`. -/
def update_trackers (m : TrackingManager) (dets : List Det) (frame_number : Option Int)
    (now : ℚ) : TrackingManager :=
  let cf := match frame_number with
    | some n => n
    | none => m.current_frame + 1
  let fd := filter_detections m.filter_hist dets
  let acc := fd.2.foldl (detStep now) ⟨m.active_tracks, m.lost_tracks, [], m.total_tracked⟩
  let act2 := acc.active.filter fun p => decide (p.1 ∈ acc.ids)
  let lost2 := (acc.active.filter fun p => decide (p.1 ∉ acc.ids)).foldl
    (fun l p => aset l p.1 (cf, { p.2 with occluded := true })) acc.lost
  let kept := lost2.filter fun p => decide (cf - p.2.1 ≤ (max_lost_frames : Int))
  { active_tracks := act2
    lost_tracks := kept
    current_frame := cf
    total_tracked := acc.total_tracked
    total_lost := m.total_lost + (lost2.length - kept.length)
    filter_hist := fd.1 }

/-- The invariant of claim C10: no identifier is both an active and a lost key. -/
def disjointTracks (m : TrackingManager) : Prop :=
  ∀ k, k ∈ akeys m.active_tracks → k ∉ akeys m.lost_tracks

/-- The same invariant on the detection-loop intermediate state. -/
def disjointPass (acc : DetPass) : Prop :=
  ∀ k, k ∈ akeys acc.active → k ∉ akeys acc.lost

lemma akeys_append {β : Type} (l1 l2 : List (Int × β)) :
    akeys (l1 ++ l2) = akeys l1 ++ akeys l2 :=
  List.map_append _ _ _

lemma mem_akeys_filter {β : Type} (pred : Int × β → Bool) (l : List (Int × β)) (k : Int)
    (h : k ∈ akeys (l.filter pred)) : k ∈ akeys l := by
  simp only [akeys, List.mem_map] at h ⊢
  obtain ⟨p, hp, hpk⟩ := h
  exact ⟨p, List.mem_of_mem_filter hp, hpk⟩

lemma detStep_disjoint (now : ℚ) (acc : DetPass) (det : Det) (h : disjointPass acc) :
    disjointPass (detStep now acc det) := by
  rw [detStep]
  rcases hd : det.track_id with _ | i
  · exact h
  · simp only
    rcases hl : alookup acc.lost i with _ | p
    · simp only
      rcases ha : alookup acc.active i with _ | tr
      · simp only
        split
        · intro k hk
          rw [akeys_append] at hk
          rcases List.mem_append.mp hk with hk | hk
          · exact h k hk
          · have hk : k = i := by simpa [akeys] using hk
            subst hk
            exact (alookup_eq_none_iff acc.lost k).mp hl
        · exact h
      · simp only
        intro k hk
        rcases (mem_akeys_aset acc.active i k _).mp hk with hk | hk
        · subst hk
          exact h k (mem_akeys_of_alookup ha)
        · exact h k hk
    · simp only [alookup_aset_self]
      intro k hk
      rcases (mem_akeys_aset _ i k _).mp hk with hk | hk
      · subst hk
        intro hc
        exact ((mem_akeys_aerase acc.lost k k).mp hc).2 rfl
      · rcases (mem_akeys_aset acc.active i k _).mp hk with hk | hk
        · subst hk
          intro hc
          exact ((mem_akeys_aerase acc.lost k k).mp hc).2 rfl
        · intro hc
          exact h k hk ((mem_akeys_aerase acc.lost i k).mp hc).1

lemma foldl_detStep_disjoint (now : ℚ) :
    ∀ (l : List Det) (acc : DetPass), disjointPass acc →
      disjointPass (List.foldl (detStep now) acc l)
  | [], _, h => h
  | d :: t, acc, h =>
    foldl_detStep_disjoint now t (detStep now acc d) (detStep_disjoint now acc d h)

lemma mem_akeys_foldl_aset {β : Type} (g : Int × VehicleTracker → β) :
    ∀ (items : List (Int × VehicleTracker)) (init : List (Int × β)) (k : Int),
      k ∈ akeys (items.foldl (fun l p => aset l p.1 (g p)) init) →
      k ∈ akeys init ∨ ∃ p ∈ items, p.1 = k
  | [], _, _, h => Or.inl h
  | q :: t, init, k, h => by
    rw [List.foldl_cons] at h
    rcases mem_akeys_foldl_aset g t (aset init q.1 (g q)) k h with h | ⟨p, hp, hpk⟩
    · rcases (mem_akeys_aset init q.1 k (g q)).mp h with h | h
      · exact Or.inr ⟨q, List.mem_cons_self q t, h.symm⟩
      · exact Or.inl h
    · exact Or.inr ⟨p, List.mem_cons_of_mem q hp, hpk⟩

lemma update_trackers_preserves_disjoint (m : TrackingManager) (dets : List Det)
    (fn : Option Int) (now : ℚ) (h : disjointTracks m) :
    disjointTracks (update_trackers m dets fn now) := by
  intro k hk
  rw [update_trackers.eq_def] at hk ⊢
  simp only at hk ⊢
  set acc := (filter_detections m.filter_hist dets).2.foldl (detStep now)
    ⟨m.active_tracks, m.lost_tracks, [], m.total_tracked⟩ with hacc
  have hdp : disjointPass acc :=
    foldl_detStep_disjoint now _ _ (fun k hk => h k hk)
  have hkact : k ∈ akeys acc.active := mem_akeys_filter _ _ _ hk
  have hkids : k ∈ acc.ids := by
    simp only [akeys, List.mem_map] at hk
    obtain ⟨p, hp, hpk⟩ := hk
    have := List.of_mem_filter hp
    rw [hpk] at this
    exact of_decide_eq_true this
  intro hc
  have hc2 := mem_akeys_filter _ _ _ hc
  rcases mem_akeys_foldl_aset _ _ _ _ hc2 with hc3 | ⟨p, hp, hpk⟩
  · exact hdp k hkact hc3
  · have := List.of_mem_filter hp
    rw [hpk] at this
    exact of_decide_eq_true this hkids

/-- C10: the active-track and lost-track dictionaries have disjoint key sets: after
construction, after `reset`, and after every `update_trackers` call from any state
already satisfying the invariant (restoration erases the identifier from the lost
dictionary before reactivating it; a track moved to the lost dictionary is removed
from the active one in the same step). -/
theorem c10_active_lost_disjoint :
    disjointTracks initManager
    ∧ (∀ m : TrackingManager, disjointTracks (resetManager m))
    ∧ (∀ (m : TrackingManager) (dets : List Det) (fn : Option Int) (now : ℚ),
        disjointTracks m → disjointTracks (update_trackers m dets fn now)) := by
  refine ⟨?_, ?_, fun m dets fn now h => update_trackers_preserves_disjoint m dets fn now h⟩
  · intro k hk
    simp [initManager, akeys] at hk
  · intro m k hk
    simp [resetManager, akeys] at hk

/-- A concrete detection for the C10 witness. -/
def detC10 : Det :=
  { track_id := some 2, bbox := (0, 0, 30, 30), confidence := 4/5,
    class_id := 2, class_name := "car", center := (15, 15) }

/-- Witness for C10: the invariant holds after an `update_trackers` call on the
freshly constructed manager. -/
theorem c10_witness : disjointTracks (update_trackers initManager [detC10] none 1) :=
  c10_active_lost_disjoint.2.2 initManager [detC10] none 1 c10_active_lost_disjoint.1

/-! ## Occlusion-window lemmas for claim C3

`fkey i l` restricts a dictionary to its entries with key `i`; for dictionary
states it is `[]` or a singleton, which makes the lost-track lifecycle across
missing frames trackable through the move-to-lost fold and the aging filter. -/

/-- The entries of a dictionary with key `i`, in order. -/
def fkey {β : Type} (i : Int) (l : List (Int × β)) : List (Int × β) :=
  l.filter fun p => decide (p.1 = i)

lemma fkey_append {β : Type} (i : Int) (l1 l2 : List (Int × β)) :
    fkey i (l1 ++ l2) = fkey i l1 ++ fkey i l2 := by
  simp [fkey]

lemma fkey_cons_self {β : Type} (i : Int) (v : β) (t : List (Int × β)) :
    fkey i ((i, v) :: t) = (i, v) :: fkey i t := by
  rw [fkey, List.filter_cons, if_pos (by simp)]
  rfl

lemma fkey_cons_ne {β : Type} (i : Int) (p : Int × β) (t : List (Int × β)) (h : p.1 ≠ i) :
    fkey i (p :: t) = fkey i t := by
  rw [fkey, List.filter_cons, if_neg (by simp [h])]
  rfl

lemma fkey_eq_nil_iff {β : Type} (i : Int) (l : List (Int × β)) :
    fkey i l = [] ↔ i ∉ akeys l := by
  rw [fkey, List.filter_eq_nil_iff]
  simp only [akeys, List.mem_map, decide_eq_true_eq]
  constructor
  · intro h hc
    obtain ⟨p, hp, hpk⟩ := hc
    exact h p hp hpk
  · intro h p hp hpk
    exact h ⟨p, hp, hpk⟩

lemma aset_eq_append_of_not_mem {β : Type} (l : List (Int × β)) (i : Int) (v : β)
    (h : i ∉ akeys l) : aset l i v = l ++ [(i, v)] := by
  induction l with
  | nil => rfl
  | cons p t ih =>
    rw [akeys_cons, List.mem_cons] at h
    push_neg at h
    rw [aset, if_neg (fun he => h.1 he.symm), ih h.2]
    rfl

lemma fkey_aset_ne {β : Type} (l : List (Int × β)) (i j : Int) (v : β) (h : j ≠ i) :
    fkey i (aset l j v) = fkey i l := by
  induction l with
  | nil => simp [aset, fkey, h]
  | cons p t ih =>
    rw [aset]
    by_cases hp : p.1 = j
    · rw [if_pos hp, fkey_cons_ne i (j, v) t (by simpa using h),
        fkey_cons_ne i p t (by rw [hp]; exact h)]
    · rw [if_neg hp]
      by_cases hq : p.1 = i
      · obtain ⟨p1, p2⟩ := p
        simp only at hq
        subst hq
        rw [fkey_cons_self, fkey_cons_self, ih]
      · rw [fkey_cons_ne i p _ hq, fkey_cons_ne i p t hq, ih]

lemma fkey_foldl_aset_of_none {β : Type} (g : Int × VehicleTracker → β) (i : Int) :
    ∀ (items : List (Int × VehicleTracker)) (init : List (Int × β)),
      (∀ p ∈ items, p.1 ≠ i) →
      fkey i (items.foldl (fun l p => aset l p.1 (g p)) init) = fkey i init
  | [], _, _ => rfl
  | q :: t, init, h => by
    rw [List.foldl_cons,
      fkey_foldl_aset_of_none g i t _ (fun p hp => h p (List.mem_cons_of_mem q hp)),
      fkey_aset_ne _ _ _ _ (h q (List.mem_cons_self q t))]

lemma fkey_foldl_aset_of_single {β : Type} (g : Int × VehicleTracker → β) (i : Int)
    (tr : VehicleTracker) :
    ∀ (items : List (Int × VehicleTracker)) (init : List (Int × β)),
      fkey i items = [(i, tr)] → fkey i init = [] →
      fkey i (items.foldl (fun l p => aset l p.1 (g p)) init) = [(i, g (i, tr))]
  | [], _, hitems, _ => by exact absurd hitems (by simp [fkey])
  | q :: t, init, hitems, hinit => by
    rw [List.foldl_cons]
    by_cases hq : q.1 = i
    · have hqe : q = (i, tr) ∧ fkey i t = [] := by
        obtain ⟨q1, q2⟩ := q
        simp only at hq
        subst hq
        rw [fkey_cons_self] at hitems
        exact ⟨(List.cons_eq_cons.mp hitems).1, (List.cons_eq_cons.mp hitems).2⟩
      obtain ⟨rfl, ht⟩ := hqe
      rw [fkey_foldl_aset_of_none g i t _
        (fun p hp hpk => by
          have hne : fkey i t ≠ [] := by
            rw [fkey]
            intro hc
            rw [List.filter_eq_nil_iff] at hc
            exact hc p hp (by simp [hpk])
          exact hne ht)]
      rw [aset_eq_append_of_not_mem init i _ ((fkey_eq_nil_iff i init).mp hinit)]
      rw [fkey_append, hinit, fkey_cons_self]
      rfl
    · rw [fkey_cons_ne i q t hq] at hitems
      exact fkey_foldl_aset_of_single g i tr t _ hitems
        (by rw [fkey_aset_ne _ _ _ _ hq, hinit])

lemma alookup_of_fkey_single {β : Type} :
    ∀ (l : List (Int × β)) (i : Int) (v : β),
      fkey i l = [(i, v)] → alookup l i = some v
  | [], i, v, h => absurd h (by simp [fkey])
  | p :: t, i, v, h => by
    by_cases hp : p.1 = i
    · obtain ⟨p1, p2⟩ := p
      simp only at hp
      subst hp
      rw [fkey_cons_self] at h
      have hpv : p2 = v := ((Prod.mk.injEq _ _ _ _).mp (List.cons_eq_cons.mp h).1).2
      rw [alookup, if_pos rfl, hpv]
    · rw [fkey_cons_ne i p t hp] at h
      rw [alookup, if_neg hp]
      exact alookup_of_fkey_single t i v h

lemma alookup_eq_none_of_fkey_nil {β : Type} (l : List (Int × β)) (i : Int)
    (h : fkey i l = []) : alookup l i = none :=
  (alookup_eq_none_iff l i).mpr ((fkey_eq_nil_iff i l).mp h)

lemma fkey_filter {β : Type} (i : Int) (q : Int × β → Bool) (l : List (Int × β)) :
    fkey i (l.filter q) = (fkey i l).filter q := by
  induction l with
  | nil => rfl
  | cons p t ih =>
    rw [List.filter_cons]
    by_cases hq : q p = true
    · rw [if_pos hq]
      by_cases hp : p.1 = i
      · obtain ⟨p1, p2⟩ := p
        simp only at hp
        subst hp
        rw [fkey_cons_self, fkey_cons_self, List.filter_cons, if_pos hq, ih]
      · rw [fkey_cons_ne i p _ hp, fkey_cons_ne i p t hp, ih]
    · rw [if_neg hq]
      by_cases hp : p.1 = i
      · obtain ⟨p1, p2⟩ := p
        simp only at hp
        subst hp
        rw [fkey_cons_self, List.filter_cons, if_neg hq, ih]
      · rw [fkey_cons_ne i p t hp, ih]

/-- `n` consecutive `update_trackers` calls with no detections, as in frames where the
track's identifier is absent (auto-incremented frame numbers). -/
def emptyIter (m : TrackingManager) (t : ℚ) : ℕ → TrackingManager
  | 0 => m
  | n + 1 => emptyIter (update_trackers m [] none t) t n

lemma empty_step_active (m : TrackingManager) (t : ℚ) :
    (update_trackers m [] none t).active_tracks = [] := by
  simp [update_trackers, filter_detections]

lemma empty_step_frame (m : TrackingManager) (t : ℚ) :
    (update_trackers m [] none t).current_frame = m.current_frame + 1 := by
  simp [update_trackers, filter_detections]

lemma empty_step_lost_fkey_single (m : TrackingManager) (t : ℚ) (i : Int)
    (tr : VehicleTracker)
    (hact : fkey i m.active_tracks = [(i, tr)]) (hlost : fkey i m.lost_tracks = []) :
    fkey i (update_trackers m [] none t).lost_tracks
      = [(i, (m.current_frame + 1, { tr with occluded := true }))] := by
  simp only [update_trackers, filter_detections, List.foldl_nil]
  rw [fkey_filter]
  have hmv : (m.active_tracks.filter fun p => decide (p.1 ∉ ([] : List Int)))
      = m.active_tracks := by simp
  rw [hmv,
    fkey_foldl_aset_of_single
      (fun p => (m.current_frame + 1, { p.2 with occluded := true })) i tr
      m.active_tracks m.lost_tracks hact hlost,
    List.filter_cons, if_pos (by simp)]
  rfl

lemma empty_step_lost_fkey_keep (m : TrackingManager) (t : ℚ) (i : Int)
    (v : Int × VehicleTracker)
    (hact : m.active_tracks = []) (hlost : fkey i m.lost_tracks = [(i, v)]) :
    fkey i (update_trackers m [] none t).lost_tracks
      = if m.current_frame + 1 - v.1 ≤ (max_lost_frames : Int) then [(i, v)] else [] := by
  simp only [update_trackers, filter_detections, List.foldl_nil, hact,
    List.filter_nil]
  rw [fkey_filter, hlost, List.filter_cons]
  by_cases hc : m.current_frame + 1 - v.1 ≤ (max_lost_frames : Int)
  · rw [if_pos (by simpa using hc), if_pos hc]
    rfl
  · rw [if_neg (by simpa using hc), if_neg hc]
    rfl

lemma empty_step_lost_fkey_nil (m : TrackingManager) (t : ℚ) (i : Int)
    (hact : m.active_tracks = []) (hlost : fkey i m.lost_tracks = []) :
    fkey i (update_trackers m [] none t).lost_tracks = [] := by
  simp only [update_trackers, filter_detections, List.foldl_nil, hact,
    List.filter_nil]
  rw [fkey_filter, hlost, List.filter_nil]

lemma empty_step_hist_not_mem (m : TrackingManager) (t : ℚ) (i : Int)
    (h : i ∉ akeys m.filter_hist) :
    i ∉ akeys (update_trackers m [] none t).filter_hist := by
  simp only [update_trackers, filter_detections, List.foldl_nil]
  intro hc
  exact h (mem_akeys_filter _ _ _ hc)

lemma empty_step_hist_cleans (m : TrackingManager) (t : ℚ) (i : Int)
    (h : ∀ p ∈ m.filter_hist, p.1 = i → history_length ≤ p.2.length) :
    i ∉ akeys (update_trackers m [] none t).filter_hist := by
  simp only [update_trackers, filter_detections, List.foldl_nil]
  intro hc
  simp only [akeys, List.mem_map] at hc
  obtain ⟨p, hp, hpk⟩ := hc
  have hmem := List.mem_of_mem_filter hp
  have hpred := List.of_mem_filter hp
  have hlen := h p hmem hpk
  simp only [List.not_mem_nil, decide_False, Bool.false_or, decide_eq_true_eq] at hpred
  omega

lemma emptyIter_nil_props (t : ℚ) (i : Int) :
    ∀ (n : ℕ) (m : TrackingManager),
      m.active_tracks = [] → fkey i m.lost_tracks = [] → i ∉ akeys m.filter_hist →
      (emptyIter m t n).active_tracks = []
      ∧ (emptyIter m t n).current_frame = m.current_frame + n
      ∧ fkey i (emptyIter m t n).lost_tracks = []
      ∧ i ∉ akeys (emptyIter m t n).filter_hist
  | 0, m, hact, hlost, hhist => ⟨hact, by simp only [emptyIter]; omega, hlost, hhist⟩
  | n + 1, m, hact, hlost, hhist => by
    obtain ⟨h1, h2, h3, h4⟩ := emptyIter_nil_props t i n (update_trackers m [] none t)
      (empty_step_active m t) (empty_step_lost_fkey_nil m t i hact hlost)
      (empty_step_hist_not_mem m t i hhist)
    refine ⟨h1, ?_, h3, h4⟩
    rw [emptyIter, h2, empty_step_frame]
    omega

lemma emptyIter_props (t : ℚ) (i : Int) (v : Int × VehicleTracker) :
    ∀ (n : ℕ) (m : TrackingManager),
      m.active_tracks = [] → fkey i m.lost_tracks = [(i, v)] →
      i ∉ akeys m.filter_hist →
      m.current_frame - v.1 ≤ (max_lost_frames : Int) →
      (emptyIter m t n).active_tracks = []
      ∧ (emptyIter m t n).current_frame = m.current_frame + n
      ∧ fkey i (emptyIter m t n).lost_tracks
          = (if m.current_frame + n - v.1 ≤ (max_lost_frames : Int) then [(i, v)] else [])
      ∧ i ∉ akeys (emptyIter m t n).filter_hist
  | 0, m, hact, hlost, hhist, hage =>
    ⟨hact, by simp only [emptyIter]; omega,
      by simp only [emptyIter]; rw [if_pos (by omega)]; exact hlost, hhist⟩
  | n + 1, m, hact, hlost, hhist, hage => by
    by_cases hc : m.current_frame + 1 - v.1 ≤ (max_lost_frames : Int)
    · obtain ⟨h1, h2, h3, h4⟩ := emptyIter_props t i v n (update_trackers m [] none t)
        (empty_step_active m t)
        (by rw [empty_step_lost_fkey_keep m t i v hact hlost, if_pos hc])
        (empty_step_hist_not_mem m t i hhist)
        (by rw [empty_step_frame]; omega)
      refine ⟨h1, ?_, ?_, h4⟩
      · rw [emptyIter, h2, empty_step_frame]
        omega
      · show fkey i (emptyIter (update_trackers m [] none t) t n).lost_tracks = _
        rw [h3, empty_step_frame]
        by_cases hcn : m.current_frame + 1 + n - v.1 ≤ (max_lost_frames : Int)
        · rw [if_pos hcn, if_pos (by omega)]
        · rw [if_neg hcn, if_neg (by omega)]
    · obtain ⟨h1, h2, h3, h4⟩ := emptyIter_nil_props t i n (update_trackers m [] none t)
        (empty_step_active m t)
        (by rw [empty_step_lost_fkey_keep m t i v hact hlost, if_neg hc])
        (empty_step_hist_not_mem m t i hhist)
      refine ⟨h1, ?_, ?_, h4⟩
      · rw [emptyIter, h2, empty_step_frame]
        omega
      · rw [emptyIter, h3, if_neg (by omega)]

lemma reappear_filter (m : TrackingManager) (d : Det) (i : Int)
    (hd : d.track_id = some i) (hconf : 3/5 < d.confidence)
    (hhist : i ∉ akeys m.filter_hist) :
    (filter_detections m.filter_hist [d]).2 = [d] := by
  rw [filter_detections]
  simp only [List.foldl_cons, List.foldl_nil]
  rw [filterStep, hd]
  simp only [(alookup_eq_none_iff _ _).mpr hhist, Option.getD_none]
  rw [if_pos ⟨by simp [dequeAppend, history_length], hconf⟩]
  rfl

lemma single_det_update (m : TrackingManager) (d : Det) (i : Int) (now : ℚ)
    (hact : m.active_tracks = [])
    (hfd : (filter_detections m.filter_hist [d]).2 = [d]) (hd : d.track_id = some i) :
    (update_trackers m [d] none now).active_tracks
      = [(i,
          match alookup m.lost_tracks i with
          | some p => VehicleTracker.update p.2 d.center d.bbox d.confidence now
          | none => mkVehicleTracker i d.class_id d.class_name d.center d.bbox now)] := by
  simp only [update_trackers, hfd, List.foldl_cons, List.foldl_nil]
  rw [detStep, hd]
  simp only [hact]
  rcases hl : alookup m.lost_tracks i with _ | p
  · simp only [hl]
    rw [show alookup ([] : List (Int × VehicleTracker)) i = none from rfl]
    simp only
    rw [if_pos (by simp [MAX_TRACKED_VEHICLES])]
    simp
  · simp only [hl]
    have e1 : aset ([] : List (Int × VehicleTracker)) i p.2 = [(i, p.2)] := rfl
    have e2 : alookup [(i, p.2)] i = some p.2 := by simp [alookup]
    have e3 : aset [(i, p.2)] i (VehicleTracker.update p.2 d.center d.bbox d.confidence now)
        = [(i, VehicleTracker.update p.2 d.center d.bbox d.confidence now)] := by
      simp [aset]
    simp only [e1, e2, e3]
    simp

lemma motionState_first_seen (tr : VehicleTracker) (dsq now : ℚ) :
    (motionState tr dsq now).first_seen = tr.first_seen := by
  rw [motionState]
  split
  · dsimp only
    split <;> rfl
  · dsimp only
    split <;> rfl

lemma parkingStatus_first_seen (tr : VehicleTracker) (now : ℚ) :
    (parkingStatus tr now).first_seen = tr.first_seen := by
  rw [parkingStatus]
  split
  · rfl
  · split <;> rfl

lemma update_first_seen (tr : VehicleTracker) (p : Int × Int) (b : Box) (c now : ℚ) :
    (VehicleTracker.update tr p b c now).first_seen = tr.first_seen := by
  rw [VehicleTracker.update]
  simp only [parkingStatus_first_seen]
  split
  · split
    · rw [motionState_first_seen]
    · rfl
  · rfl

lemma c3_main (m : TrackingManager) (i : Int) (tr : VehicleTracker) (N : ℕ) (d : Det)
    (t now : ℚ)
    (hact : fkey i m.active_tracks = [(i, tr)])
    (hlost : fkey i m.lost_tracks = [])
    (hhist : ∀ p ∈ m.filter_hist, p.1 = i → history_length ≤ p.2.length)
    (hd : d.track_id = some i) (hconf : 3/5 < d.confidence)
    (hN : 1 ≤ N) :
    (N ≤ 31 →
      alookup (update_trackers (emptyIter m t N) [d] none now).active_tracks i
        = some (VehicleTracker.update { tr with occluded := true }
            d.center d.bbox d.confidence now))
    ∧ (32 ≤ N →
      alookup (update_trackers (emptyIter m t N) [d] none now).active_tracks i
        = some (mkVehicleTracker i d.class_id d.class_name d.center d.bbox now)) := by
  obtain ⟨k, rfl⟩ : ∃ k, N = k + 1 := ⟨N - 1, by omega⟩
  have hstep : emptyIter m t (k + 1) = emptyIter (update_trackers m [] none t) t k := rfl
  set m1 := update_trackers m [] none t with hm1
  have h1act : m1.active_tracks = [] := empty_step_active m t
  have h1frame : m1.current_frame = m.current_frame + 1 := empty_step_frame m t
  have h1lost : fkey i m1.lost_tracks
      = [(i, (m.current_frame + 1, { tr with occluded := true }))] :=
    empty_step_lost_fkey_single m t i tr hact hlost
  have h1hist : i ∉ akeys m1.filter_hist := empty_step_hist_cleans m t i hhist
  obtain ⟨h2act, h2frame, h2lost, h2hist⟩ :=
    emptyIter_props t i (m.current_frame + 1, { tr with occluded := true }) k m1
      h1act h1lost h1hist (by rw [h1frame]; simp)
  rw [h1frame] at h2lost
  constructor
  · intro hle
    have hkeep : fkey i (emptyIter m1 t k).lost_tracks
        = [(i, (m.current_frame + 1, { tr with occluded := true }))] := by
      rw [h2lost, if_pos (by simp only [max_lost_frames]; omega)]
    rw [hstep, single_det_update (emptyIter m1 t k) d i now h2act
      (reappear_filter _ d i hd hconf h2hist) hd]
    rw [alookup_of_fkey_single _ _ _ hkeep]
    simp [alookup]
  · intro hge
    have hdrop : fkey i (emptyIter m1 t k).lost_tracks = [] := by
      rw [h2lost, if_neg (by simp only [max_lost_frames]; omega)]
    rw [hstep, single_det_update (emptyIter m1 t k) d i now h2act
      (reappear_filter _ d i hd hconf h2hist) hd]
    rw [alookup_eq_none_of_fkey_nil _ _ hdrop]
    simp [alookup]

/-- C3 as amended: starting from a manager whose active dictionary holds exactly the
track `(i, tr)`, whose lost dictionary has no entry for `i`, and whose stability-filter
history for `i` is full (at least `history_length` entries, as after 10 frames of
presence — so it is purged on the first missing frame), let the identifier be absent
for `N ≥ 1` consecutive frames and then reappear with confidence above `0.6`. Then the
boundary is `31`, not the grace window `30`: for `N ≤ 31` the same track object is
restored and updated, preserving its original `first_seen` (and with it the stationary
timer feeding `park_duration`); only for `N ≥ 32` is a brand-new tracker created, with
`first_seen` reset to the current instant and fresh history. The off-by-one arises
because eviction requires `current_frame - lost_frame > 30` at the end of an update,
and the restoring update runs its detection loop before that check. -/
theorem c3_grace_window_amended (m : TrackingManager) (i : Int) (tr : VehicleTracker)
    (N : ℕ) (d : Det) (t now : ℚ)
    (hact : fkey i m.active_tracks = [(i, tr)])
    (hlost : fkey i m.lost_tracks = [])
    (hhist : ∀ p ∈ m.filter_hist, p.1 = i → history_length ≤ p.2.length)
    (hd : d.track_id = some i) (hconf : 3/5 < d.confidence)
    (hN : 1 ≤ N) :
    (N ≤ 31 →
      alookup (update_trackers (emptyIter m t N) [d] none now).active_tracks i
        = some (VehicleTracker.update { tr with occluded := true }
            d.center d.bbox d.confidence now)
      ∧ (alookup (update_trackers (emptyIter m t N) [d] none now).active_tracks i).map
          VehicleTracker.first_seen = some tr.first_seen)
    ∧ (32 ≤ N →
      alookup (update_trackers (emptyIter m t N) [d] none now).active_tracks i
        = some (mkVehicleTracker i d.class_id d.class_name d.center d.bbox now)
      ∧ (alookup (update_trackers (emptyIter m t N) [d] none now).active_tracks i).map
          VehicleTracker.first_seen = some now) := by
  obtain ⟨hA, hB⟩ := c3_main m i tr N d t now hact hlost hhist hd hconf hN
  constructor
  · intro hle
    refine ⟨hA hle, ?_⟩
    rw [hA hle, Option.map_some', update_first_seen]
  · intro hge
    refine ⟨hB hge, ?_⟩
    rw [hB hge, Option.map_some']
    rfl

/-- One full-confidence history entry for the C3 concrete state. -/
def entC3 : HistEntry := ⟨(0, 0, 100, 100), 9/10, 2⟩

/-- The C3 track: created at time `1`, so `first_seen = 1`. -/
def trC3 : VehicleTracker := mkVehicleTracker 1 2 "car" (50, 50) (0, 0, 100, 100) 1

/-- The C3 concrete manager: track `1` active (first seen at time `1`), its filter
history full after 10 frames of presence, current frame `10`. -/
def mC3 : TrackingManager where
  active_tracks := [(1, trC3)]
  lost_tracks := []
  current_frame := 10
  total_tracked := 1
  total_lost := 0
  filter_hist := [(1, List.replicate 5 entC3)]

/-- The reappearing detection of track `1`. -/
def dC3 : Det :=
  { track_id := some 1, bbox := (0, 0, 100, 100), confidence := 9/10,
    class_id := 2, class_name := "car", center := (50, 50) }

/-- Counterexample for C3: track `1` goes missing for `N = 31` consecutive frames —
strictly more than the grace window of 30 frames — and reappears at time `42`. The
claim says the reappearance must create a brand-new track with reset history, but the
manager restores the original object: the reactivated track's `first_seen` is still
`1`, the original creation time, not `42`. -/
theorem c3_counterexample :
    (alookup (update_trackers (emptyIter mC3 0 31) [dC3] none 42).active_tracks 1).map
        VehicleTracker.first_seen = some 1
    ∧ (1 : ℚ) ≠ 42 := by
  have h3 : ∀ p ∈ mC3.filter_hist, p.1 = 1 → history_length ≤ p.2.length := by
    intro p hp _
    rw [show mC3.filter_hist = [(1, List.replicate 5 entC3)] from rfl,
      List.mem_singleton] at hp
    subst hp
    simp [history_length]
  have hc : (3 : ℚ)/5 < dC3.confidence := by norm_num [dC3]
  have h := (c3_main mC3 1 trC3 31 dC3 0 42 rfl rfl h3 rfl hc (by norm_num)).1
    (by norm_num)
  refine ⟨?_, by norm_num⟩
  rw [h, Option.map_some', update_first_seen]
  rfl

/-- Witness for the amended C3: after `N = 5` missing frames (within the window) the
reappearance restores and updates the original tracker, preserving `first_seen = 1`. -/
theorem c3_witness :
    alookup (update_trackers (emptyIter mC3 0 5) [dC3] none 99).active_tracks 1
        = some (VehicleTracker.update { trC3 with occluded := true }
            dC3.center dC3.bbox dC3.confidence 99)
    ∧ (alookup (update_trackers (emptyIter mC3 0 5) [dC3] none 99).active_tracks 1).map
        VehicleTracker.first_seen = some trC3.first_seen :=
  (c3_grace_window_amended mC3 1 trC3 5 dC3 0 99 rfl rfl
    (by
      intro p hp _
      rw [show mC3.filter_hist = [(1, List.replicate 5 entC3)] from rfl,
        List.mem_singleton] at hp
      subst hp
      simp [history_length])
    rfl (by norm_num [dC3]) (by norm_num)).1 (by norm_num)

end Parking
